import Mathlib

/- Verification development for the run-orchestration core of a vLLM
   benchmark-matrix driver (run_matrix / lib).  The definitions below are a
   shallow embedding of the TypeScript sources: external nondeterminism
   (filesystem, HTTP endpoints, child processes, nvidia-smi) is supplied by
   explicit oracle structures, and the driver's ambient mutable state
   (process.env.CUDA_VISIBLE_DEVICES, the per-mode kv-cache hint map) is
   threaded explicitly. -/

namespace VllmBench

/- ===================== JS primitives ===================== -/

/-- Whitespace characters as matched by the regex class backslash-s and by
String.prototype.trim for the inputs that occur here. -/
def isJsWs (c : Char) : Bool := c == ' ' || c == '\t' || c == '\n' || c == '\r'

/-- Characters matched by the regex class of digits and dots used in the
metric patterns. -/
def isNumChar (c : Char) : Bool := c.isDigit || c == '.'

/-- Value of a (possibly empty) digit string, most significant first. -/
def digitsVal (l : List Char) : Nat :=
  l.foldl (fun a c => a * 10 + (c.toNat - 48)) 0

/-- JS Number() applied to a capture consisting of digits and dots:
no dot gives the integer value, exactly one dot with at least one digit
somewhere gives the decimal value, a lone dot or two or more dots give NaN
(modelled as none). -/
def jsNumOfDigits (l : List Char) : Option Rat :=
  let intPart := l.takeWhile (fun c => !(c == '.'))
  match l.drop intPart.length with
  | [] => some (digitsVal intPart)
  | _ :: frac =>
    if frac.contains '.' then none
    else if intPart.isEmpty && frac.isEmpty then none
    else some ((digitsVal intPart : Rat) + (digitsVal frac : Rat) / (10 ^ frac.length))

/-- Try to match, at the head of s, the literal lit followed by optional
whitespace followed by one or more numChar characters (greedy), returning
the captured number characters. -/
def litMatchAt (lit : List Char) (numChar : Char → Bool) (s : List Char) :
    Option (List Char) :=
  if lit.isPrefixOf s then
    let rest := (s.drop lit.length).dropWhile isJsWs
    let ds := rest.takeWhile numChar
    if ds.isEmpty then none else some ds
  else none

/-- Leftmost match of the pattern (literal, whitespace, capture) in the
text, as String.prototype.match does for the anchored-literal regexes used
by parseBenchOutput. -/
def findFirstNum (lit : List Char) (numChar : Char → Bool) :
    List Char → Option (List Char)
  | [] => none
  | c :: rest =>
    match litMatchAt lit numChar (c :: rest) with
    | some ds => some ds
    | none => findFirstNum lit numChar rest

/-- Result record of parseBenchOutput.  The outer Option is key presence
(no match leaves the key absent); the inner Option models the JS number
(none for NaN). -/
structure BenchMetrics where
  totalElapsed : Option (Option Rat)
  totalTokens : Option (Option Rat)
  tokensPerSecond : Option (Option Rat)
  p50Ms : Option (Option Rat)
  p99Ms : Option (Option Rat)
deriving DecidableEq

/-- The empty metrics object, as produced when the bench client never ran
or its output matched no pattern. -/
def emptyBenchMetrics : BenchMetrics :=
  { totalElapsed := none, totalTokens := none, tokensPerSecond := none,
    p50Ms := none, p99Ms := none }

/-- parseBenchOutput from lib: five fixed regexes, each searched once over
the whole text; a match stores Number(capture), otherwise the key is left
absent. -/
def parseBenchOutput (text : String) : BenchMetrics :=
  let s := text.data
  { totalElapsed := (findFirstNum ("Total elapsed wall time (s):").data isNumChar s).map jsNumOfDigits
  , totalTokens := (findFirstNum ("Total generated tokens:").data (fun c => c.isDigit) s).map jsNumOfDigits
  , tokensPerSecond := (findFirstNum ("Tokens per second:").data isNumChar s).map jsNumOfDigits
  , p50Ms := (findFirstNum ("P50 latency (ms):").data isNumChar s).map jsNumOfDigits
  , p99Ms := (findFirstNum ("P99 latency (ms):").data isNumChar s).map jsNumOfDigits }

/- ===================== GPU sampler reduction ===================== -/

/-- One parsed nvidia-smi sample (parseGpuSample). -/
structure GpuSample where
  timestampMs : Nat
  utilGpu : Rat
  utilMem : Rat
  memUsedMiB : Rat
  memTotalMiB : Rat
  powerW : Rat
  tempC : Rat
deriving DecidableEq

/-- Per-metric aggregate values (the avg and max objects of GpuStats). -/
structure GpuMetrics where
  utilGpu : Rat
  utilMem : Rat
  memUsedMiB : Rat
  memTotalMiB : Rat
  powerW : Rat
  tempC : Rat
deriving DecidableEq

/-- The summary returned by the sampler's stop. -/
structure GpuStats where
  samples : Nat
  avg : GpuMetrics
  max : GpuMetrics
deriving DecidableEq

/-- values.reduce((a, b) => a + b, 0). -/
def listSum (l : List Rat) : Rat := l.foldl (fun a b => a + b) 0

/-- Math.max(...values) for a nonempty values list (0 is a dummy for the
empty case, which stop never reaches). -/
def listMax : List Rat → Rat
  | [] => 0
  | x :: xs => xs.foldl (fun a b => if a < b then b else a) x

/-- The reduction performed by stop of startGpuSampler: null when no sample
was collected, otherwise per-field average and maximum plus the count. -/
def gpuStatsOf (samples : List GpuSample) : Option GpuStats :=
  if samples.isEmpty then none
  else
    some
      { samples := samples.length
      , avg :=
          { utilGpu := listSum (samples.map (fun s => s.utilGpu)) / samples.length
          , utilMem := listSum (samples.map (fun s => s.utilMem)) / samples.length
          , memUsedMiB := listSum (samples.map (fun s => s.memUsedMiB)) / samples.length
          , memTotalMiB := listSum (samples.map (fun s => s.memTotalMiB)) / samples.length
          , powerW := listSum (samples.map (fun s => s.powerW)) / samples.length
          , tempC := listSum (samples.map (fun s => s.tempC)) / samples.length }
      , max :=
          { utilGpu := listMax (samples.map (fun s => s.utilGpu))
          , utilMem := listMax (samples.map (fun s => s.utilMem))
          , memUsedMiB := listMax (samples.map (fun s => s.memUsedMiB))
          , memTotalMiB := listMax (samples.map (fun s => s.memTotalMiB))
          , powerW := listMax (samples.map (fun s => s.powerW))
          , tempC := listMax (samples.map (fun s => s.tempC)) } }

/- ===================== JS number formatting ===================== -/

/-- Decimal digits of a rational in the half-open unit interval, at most
fuel digits (terminates immediately at 0, which covers every value the
driver formats). -/
def fracDigitChars : Nat → Rat → List Char
  | 0, _ => []
  | fuel + 1, q =>
    if q = 0 then []
    else
      let d : Int := Rat.floor (q * 10)
      Char.ofNat (48 + d.toNat) :: fracDigitChars fuel (q * 10 - d)

/-- JS template-literal formatting of a number, for the exact decimal
values the driver handles (limiter targets, max-model-len). -/
def jsNumToString (q : Rat) : String :=
  let sign := if q < 0 then "-" else ""
  let a := if q < 0 then -q else q
  let ip := (Rat.floor a).toNat
  let fp := a - Rat.floor a
  if fp = 0 then sign ++ Nat.repr ip
  else sign ++ Nat.repr ip ++ "." ++ (fracDigitChars 64 fp).asString

/- ===================== CUDA_VISIBLE_DEVICES guard ===================== -/

/-- JS truthiness of an env-var value (undefined and the empty string are
falsy). -/
def jsTruthy (v : Option String) : Bool :=
  match v with
  | none => false
  | some s => !(s == "")

/-- String.prototype.includes for a comma. -/
def hasComma (s : String) : Bool := s.data.contains ','

/-- ensureSingleCudaVisible from lib: throws when the ambient value names
more than one device (contains a comma); silently sets it to 0 when it is
unset or empty; otherwise leaves it unchanged.  The returned value is the
new ambient value. -/
def ensureSingleCudaVisible (cuda : Option String) : Except String (Option String) :=
  if jsTruthy cuda && hasComma (cuda.getD "") then
    .error "CUDA_VISIBLE_DEVICES must expose exactly one GPU (no comma)."
  else if jsTruthy cuda = false then .ok (some "0")
  else .ok cuda

/-- The ambient value is acceptable to the guard (no nonempty value with a
comma). -/
def cudaOkB (c : Option String) : Bool :=
  match c with
  | none => true
  | some s => !(hasComma s)

/-- The ambient value after a successful guard call. -/
def cudaAfter (c : Option String) : Option String :=
  if jsTruthy c then c else some "0"

/- ===================== Paths and run specs ===================== -/

/-- path.resolve(base, name) for the per-run paths built by the driver. -/
def resolvePath (base name : String) : String := base ++ "/" ++ name

/-- One (mode, limiter-target) cell of the matrix; none is the unthrottled
baseline. -/
structure RunSpec where
  mode : String
  limiterTarget : Option Rat
deriving DecidableEq

/-- Identity key of a run. -/
def specKey (s : RunSpec) : String × Option Rat := (s.mode, s.limiterTarget)

/-- makeRunLabel from run_matrix. -/
def makeRunLabel (limiterTarget : Option Rat) : String :=
  match limiterTarget with
  | none => "baseline"
  | some u => "limit_" ++ jsNumToString u

/- ===================== vLLM serve arguments ===================== -/

/-- vllmServeArgs from lib; every call site uses the defaults
dtype = float16 and tensor-parallel-size = 1, which are inlined here, and
an absent maxModelLen defaults to 2048. -/
def vllmServeArgs (model port gpuMemoryUtilization : String)
    (maxModelLen : Option Rat) : List String :=
  ["serve", model,
   "--dtype", "float16",
   "--tensor-parallel-size", "1",
   "--max-model-len", jsNumToString (maxModelLen.getD 2048),
   "--gpu-memory-utilization", gpuMemoryUtilization,
   "--disable-log-requests",
   "--port", port]

/- ===================== Readiness prober ===================== -/

/-- Outcome of one HTTP poll (getHttpStatus): a status code, or a network
or per-request-timeout error carrying its message. -/
inductive PollResult where
  | status (s : Nat)
  | netError (msg : String)

/-- External behaviour of the polled endpoint: the result of the k-th poll
and the wall-clock milliseconds that poll takes. -/
structure PollOracle where
  result : Nat → PollResult
  dur : Nat → Nat

/-- Result of waitForHttpOk: success after some number of polls at some
elapsed time, or a throw carrying the number of polls made, the elapsed
time at the failing deadline check, and the error message. -/
inductive WaitOutcome where
  | ok (polls : Nat) (elapsedMs : Nat)
  | timeout (polls : Nat) (elapsedMs : Nat) (message : String)
deriving DecidableEq

/-- A 2xx status. -/
def is2xx (s : Nat) : Bool := 200 ≤ s && s < 300

/-- Whether the k-th poll observes a 2xx status. -/
def poll2xxB (o : PollOracle) (k : Nat) : Bool :=
  match o.result k with
  | .status s => is2xx s
  | .netError _ => false

/-- The message stored in lastError for a failed poll. -/
def pollErrMsg : PollResult → String
  | .status s => "HTTP " ++ Nat.repr s
  | .netError m => m

/-- The message of the error thrown at the deadline. -/
def timeoutMsg (url : String) (lastErr : Option String) : String :=
  "Timeout waiting for " ++ url ++ " (" ++ lastErr.getD "timeout" ++ ")"

/-- The polling loop of waitForHttpOk: while the elapsed time is below the
deadline, poll; return on 2xx; otherwise remember the failure reason and
sleep intervalMs.  Time is modelled explicitly: each iteration advances by
the poll duration plus the sleep.  The code's sleep of intervalMs is
modelled as max 1 intervalMs: for every positive interval this is the
interval itself; interval 0 would make the real loop spin without
advancing, which the model excludes to stay terminating. -/
def waitLoop (url : String) (o : PollOracle) (timeoutMs intervalMs : Nat)
    (k t : Nat) (lastErr : Option String) : WaitOutcome :=
  if _h : t < timeoutMs then
    match o.result k with
    | .status s =>
      if is2xx s then .ok (k + 1) (t + o.dur k)
      else waitLoop url o timeoutMs intervalMs (k + 1)
        (t + o.dur k + max 1 intervalMs) (some ("HTTP " ++ Nat.repr s))
    | .netError m =>
      waitLoop url o timeoutMs intervalMs (k + 1)
        (t + o.dur k + max 1 intervalMs) (some m)
  else .timeout k t (timeoutMsg url lastErr)
termination_by timeoutMs - t
decreasing_by
  all_goals
    have h1 : 1 ≤ max 1 intervalMs := Nat.le_max_left 1 intervalMs
    omega

/-- waitForHttpOk from lib: poll from time 0 with no prior error. -/
def waitForHttpOk (url : String) (o : PollOracle) (timeoutMs intervalMs : Nat) :
    WaitOutcome :=
  waitLoop url o timeoutMs intervalMs 0 0 none

/- ===================== Process-tree termination ===================== -/

/-- Outcome of a process.kill syscall on the process group: the signal was
delivered; the group no longer exists (ESRCH); or another failure with a
message. -/
inductive SigResult where
  | delivered
  | esrch
  | failed (msg : String)
deriving DecidableEq

/-- External behaviour of the process group under killProcessTree: the
outcome of the SIGTERM attempt and, if one is made, of the later SIGKILL
attempt (esrch exactly when the group has exited by then). -/
structure KillOracle where
  termResult : SigResult
  killResult : SigResult

/-- Observable trace of killProcessTree: which signals were delivered, when
the SIGKILL attempt (if any) happens, and which errors were logged. -/
structure KillTrace where
  sigtermDelivered : Bool
  sigkillAttemptAt : Option Nat
  sigkillDelivered : Bool
  loggedErrors : List String
deriving DecidableEq

/-- The 200 ms watchdog timer first fires past the grace period at the
least multiple of 200 strictly greater than timeoutMs. -/
def firstEscalationTick (timeoutMs : Nat) : Nat := 200 * (timeoutMs / 200 + 1)

/-- killProcessTree from lib: no-op without a pid; SIGTERM to the negated
pid (the whole group) first — ESRCH returns silently, any other failure is
logged and the function returns without escalation; on success a 200 ms
interval timer sends SIGKILL to the same group once the grace period has
elapsed, again swallowing ESRCH and logging any other failure. -/
def killProcessTree (pid : Option Nat) (o : KillOracle) (timeoutMs : Nat) :
    KillTrace :=
  match pid with
  | none =>
    { sigtermDelivered := false, sigkillAttemptAt := none,
      sigkillDelivered := false, loggedErrors := [] }
  | some _ =>
    match o.termResult with
    | .esrch =>
      { sigtermDelivered := false, sigkillAttemptAt := none,
        sigkillDelivered := false, loggedErrors := [] }
    | .failed m =>
      { sigtermDelivered := false, sigkillAttemptAt := none,
        sigkillDelivered := false,
        loggedErrors := ["Failed to terminate process group: " ++ m] }
    | .delivered =>
      { sigtermDelivered := true
      , sigkillAttemptAt := some (firstEscalationTick timeoutMs)
      , sigkillDelivered :=
          match o.killResult with
          | .delivered => true
          | _ => false
      , loggedErrors :=
          match o.killResult with
          | .failed m => ["Failed to force kill process group: " ++ m]
          | _ => [] }

/- ===================== Scratch-path cleanup ===================== -/

/-- Filesystem behaviour seen by cleanupShmPath: the outcome of
fs.rmSync(path, recursive + force) per path, and whether the path exists
(with force, removal of a nonexistent path succeeds). -/
structure FsOracle where
  rmResult : String → Except String Unit
  pathExists : String → Bool

/-- Observable trace of cleanupShmPath: whether a removal was attempted and
the warning (if any) that was logged.  The total return type reflects that
the function never raises. -/
structure CleanupTrace where
  attemptedRemove : Bool
  warned : Option String
deriving DecidableEq

/-- cleanupShmPath from run_matrix: undefined path is a no-op; otherwise
rmSync inside try/catch, logging a warning (and returning normally) on
failure. -/
def cleanupShmPath (o : FsOracle) (pathToRemove : Option String) : CleanupTrace :=
  match pathToRemove with
  | none => { attemptedRemove := false, warned := none }
  | some p =>
    match o.rmResult p with
    | .ok _ => { attemptedRemove := true, warned := none }
    | .error e =>
      { attemptedRemove := true
      , warned := some ("Failed to remove shared memory path " ++ p ++ ": " ++ e) }

/- ===================== The matrix driver (current run_matrix) ===================== -/

/-- Static configuration of one matrix invocation: CLI options, environment
and constants from config.  The existence flags model fs.existsSync on the
two artifact paths, which do not change during the matrix. -/
structure Config where
  resultsRoot : String
  portA : String
  modelName : String
  gpuUtilSingle : String
  gpuUtilDouble : String
  maxModelLen : Option Rat
  envKvCacheBytes : Option String
  hypervisorBinExists : Bool
  hypervisorBinPath : String
  limiterSoExists : Bool
  limiterSoPath : String

/-- External behaviour of one run: whether the hypervisor health endpoint
answers within its timeout, whether every vLLM models endpoint becomes
ready within its timeout, the message of the readiness error otherwise,
the bench client's exit code and combined output, the collected GPU
samples, and the kv-cache size parsed from the server log
(parseKvCacheBytes, null when no line matched). -/
structure RunOracle where
  limiterReady : Bool
  serverReady : Bool
  readinessError : String
  benchExitCode : Int
  benchOutput : String
  gpuSamples : List GpuSample
  kvCacheBytesFromLog : Option Nat

/-- Driver state shared between runs: the ambient CUDA_VISIBLE_DEVICES
value and the per-mode kv-cache hint map. -/
structure RunState where
  cuda : Option String
  kvByMode : String → Option Nat

/-- One row of summaryRows. -/
structure Row where
  mode : String
  limiterTarget : Option Rat
  metrics : BenchMetrics
  benchExitCode : Int
  benchError : Option String
  gpu : Option GpuStats
deriving DecidableEq

/-- Observable outcome of one completed run: its output directory, which
processes were spawned, the argument list of the first vLLM server (the
one that may receive the kv-cache hint), the computed kv-cache argument,
and the pushed summary row. -/
structure RunOutcome where
  runDir : String
  spawnedHypervisor : Bool
  spawnedVllmB : Bool
  vllmArgsA : List String
  kvArg : Option String
  row : Row
deriving DecidableEq

/-- A throw that escapes runOne (it is outside the per-run try/catch, so it
reaches the main catch and aborts the matrix). -/
inductive AbortReason where
  | cudaComma
  | missingArtifact (label : String) (path : String)
  | limiterReadyTimeout
deriving DecidableEq

/-- The limiter provisioning steps that run before the per-run guard:
ensureExists on the hypervisor binary and the limiter library (throwing
when absent), then waitForHttpReady on the hypervisor health endpoint
(throwing on timeout).  Baseline runs skip all of it. -/
def provisionLimiter (cfg : Config) (ro : RunOracle) (lt : Option Rat) :
    Except AbortReason Unit :=
  match lt with
  | none => .ok ()
  | some _ =>
    if cfg.hypervisorBinExists = false then
      .error (.missingArtifact "hypervisor binary" cfg.hypervisorBinPath)
    else if cfg.limiterSoExists = false then
      .error (.missingArtifact "cuda limiter library" cfg.limiterSoPath)
    else if ro.limiterReady = false then .error .limiterReadyTimeout
    else .ok ()

/-- kvCacheBytesArg from runOne: only for throttled runs; the stored hint
for the mode if present, else the environment-supplied default. -/
def kvCacheArg (cfg : Config) (st : RunState) (spec : RunSpec) : Option String :=
  match spec.limiterTarget with
  | none => none
  | some _ =>
    match st.kvByMode spec.mode with
    | some v => some (Nat.repr v)
    | none => cfg.envKvCacheBytes

/-- The arguments appended when kvCacheBytesArg is truthy (a nonempty
string). -/
def kvSuffix (a : Option String) : List String :=
  match a with
  | some s => if s = "" then [] else ["--kv-cache-memory-bytes", s]
  | none => []

/-- The hint-map update performed in the finally block: only after a
baseline run, and only when parseKvCacheBytes returned a truthy (nonzero)
value. -/
def kvUpdate (st : RunState) (spec : RunSpec) (ro : RunOracle) :
    String → Option Nat :=
  match spec.limiterTarget with
  | some _ => st.kvByMode
  | none =>
    match ro.kvCacheBytesFromLog with
    | some v =>
      if v = 0 then st.kvByMode
      else fun m => if m = spec.mode then some v else st.kvByMode m
    | none => st.kvByMode

/-- Updating an absent previous hint with a parse result. -/
def captureApply (prev : Option Nat) (log : Option Nat) : Option Nat :=
  match log with
  | some v => if v = 0 then prev else some v
  | none => prev

/-- The hint a baseline run leaves for its mode when the map held nothing
before. -/
def kvCaptured (ro : RunOracle) : Option Nat :=
  captureApply none ro.kvCacheBytesFromLog

/-- The kv argument a throttled run of mode m computes from a given hint
map. -/
def kvArgFor (cfg : Config) (kv : String → Option Nat) (m : String) :
    Option String :=
  match kv m with
  | some v => some (Nat.repr v)
  | none => cfg.envKvCacheBytes

/-- The run's output directory. -/
def runDirOf (cfg : Config) (spec : RunSpec) : String :=
  resolvePath cfg.resultsRoot (spec.mode ++ "_" ++ makeRunLabel spec.limiterTarget)

/-- The summary row of one run: inside the guard, a vLLM readiness timeout
is caught and recorded with the initial exit code 1 and empty metrics and
no sampler summary (the sampler only starts after readiness); otherwise the
bench client runs and its exit code, parsed metrics and the sampler
reduction are recorded. -/
def benchRow (ro : RunOracle) (spec : RunSpec) : Row :=
  if ro.serverReady then
    { mode := spec.mode, limiterTarget := spec.limiterTarget
    , metrics := parseBenchOutput ro.benchOutput
    , benchExitCode := ro.benchExitCode, benchError := none
    , gpu := gpuStatsOf ro.gpuSamples }
  else
    { mode := spec.mode, limiterTarget := spec.limiterTarget
    , metrics := emptyBenchMetrics
    , benchExitCode := 1, benchError := some ro.readinessError
    , gpu := none }

/-- The observable outcome of a run that passed provisioning. -/
def runOutcomeOf (cfg : Config) (ro : RunOracle) (st : RunState)
    (spec : RunSpec) : RunOutcome :=
  let kv := kvCacheArg cfg st spec
  { runDir := runDirOf cfg spec
  , spawnedHypervisor := spec.limiterTarget.isSome
  , spawnedVllmB := decide (spec.mode = "double")
  , vllmArgsA :=
      vllmServeArgs cfg.modelName cfg.portA
        (if spec.mode = "double" then cfg.gpuUtilDouble else cfg.gpuUtilSingle)
        cfg.maxModelLen ++ kvSuffix kv
  , kvArg := kv
  , row := benchRow ro spec }

/-- runOne from run_matrix: the CUDA guard and limiter provisioning run
outside the per-run try/catch and abort the matrix when they throw; a run
that passes them always pushes exactly one row and updates the threaded
state. -/
def runOne (cfg : Config) (ro : RunOracle) (st : RunState) (spec : RunSpec) :
    Except AbortReason (RunOutcome × RunState) :=
  match ensureSingleCudaVisible st.cuda with
  | .error _ => .error .cudaComma
  | .ok cuda' =>
    match provisionLimiter cfg ro spec.limiterTarget with
    | .error e => .error e
    | .ok _ =>
      .ok (runOutcomeOf cfg ro st spec,
           { cuda := cuda', kvByMode := kvUpdate st spec ro })

/-- Result of driving a list of runs: the rows pushed in order, the final
threaded state, and the abort (if any) that stopped the matrix early. -/
structure MatrixResult where
  outcomes : List RunOutcome
  state : RunState
  abort : Option AbortReason

/-- Sequential execution of the spec list, indexing the per-run oracle by
position; an abort stops the loop (main's catch). -/
def runMatrix (cfg : Config) (perRun : Nat → RunOracle) :
    List RunSpec → Nat → RunState → MatrixResult
  | [], _, st => { outcomes := [], state := st, abort := none }
  | spec :: rest, idx, st =>
    match runOne cfg (perRun idx) st spec with
    | .error e => { outcomes := [], state := st, abort := some e }
    | .ok (out, st') =>
      let r := runMatrix cfg perRun rest (idx + 1) st'
      { outcomes := out :: r.outcomes, state := r.state, abort := r.abort }

/-- The enumeration order of main: one baseline per mode (unless skipped),
then for each util, for each mode, one throttled run. -/
def enumSpecs (modes : List String) (utils : List Rat) (skipBaseline : Bool) :
    List RunSpec :=
  (if skipBaseline then []
   else modes.map (fun m => { mode := m, limiterTarget := none })) ++
  utils.flatMap (fun u => modes.map (fun m => { mode := m, limiterTarget := some u }))

/-- main from run_matrix: run the enumerated matrix from the ambient CUDA
value with an empty hint map. -/
def mainMatrix (cfg : Config) (perRun : Nat → RunOracle) (modes : List String)
    (utils : List Rat) (skipBaseline : Bool) (cuda0 : Option String) :
    MatrixResult :=
  runMatrix cfg perRun (enumSpecs modes utils skipBaseline) 0
    { cuda := cuda0, kvByMode := fun _ => none }

/-- Identity key of a pushed row. -/
def outKey (o : RunOutcome) : String × Option Rat :=
  (o.row.mode, o.row.limiterTarget)

/- ===================== The token-checking run_matrix variant ===================== -/

/-- The known filesystem path of the required credential. -/
def serviceAccountTokenPath : String :=
  "/var/run/secrets/kubernetes.io/serviceaccount/token"

/-- String.prototype.trim. -/
def jsTrim (s : String) : String :=
  String.mk (((s.data.dropWhile isJsWs).reverse.dropWhile isJsWs).reverse)

/-- Configuration of the token-checking variant; tokenFileContent is the
content of the service-account token file, none when the file is absent or
unreadable. -/
structure V2Config where
  resultsRoot : String
  portA : String
  modelName : String
  gpuUtilSingle : String
  gpuUtilDouble : String
  maxModelLen : Option Rat
  tokenFileContent : Option String
  hypervisorBinExists : Bool
  hypervisorBinPath : String
  limiterSoExists : Bool
  limiterSoPath : String

/-- limiterTokenAvailable: the token file exists, is readable, and its
trimmed content is nonempty. -/
def limiterTokenAvailable (cfg : V2Config) : Bool :=
  match cfg.tokenFileContent with
  | none => false
  | some content => decide (0 < (jsTrim content).length)

/-- The diagnostic recorded when the credential is missing. -/
def limiterDisabledMsg : String :=
  "Limiter disabled: missing service account token at " ++ serviceAccountTokenPath

/-- Observable outcome of one run of the token-checking variant, with the
names of the spawned child processes. -/
structure V2Outcome where
  runDir : String
  spawned : List String
  row : Row
deriving DecidableEq

/-- The outcome of a token-checking-variant run that proceeded past the
short circuit (this variant has no hypervisor readiness wait). -/
def v2NormalOutcome (cfg : V2Config) (ro : RunOracle) (spec : RunSpec) :
    V2Outcome :=
  { runDir := resolvePath cfg.resultsRoot (spec.mode ++ "_" ++ makeRunLabel spec.limiterTarget)
  , spawned :=
      (if spec.limiterTarget.isSome then ["hypervisor"] else []) ++
      ["vllm:8000"] ++
      (if spec.mode = "double" then ["vllm:8001"] else [])
  , row := benchRow ro spec }

/-- runOne of the token-checking variant: after the CUDA guard, a throttled
run first checks the credential and, if it is unavailable, records a failed
row (exit 1, the diagnostic, no metrics, no sampler summary) without
spawning anything and returns normally; otherwise the artifact checks may
abort and the run proceeds as usual. -/
def runOneV2 (cfg : V2Config) (ro : RunOracle) (cuda : Option String)
    (spec : RunSpec) : Except AbortReason (V2Outcome × Option String) :=
  match ensureSingleCudaVisible cuda with
  | .error _ => .error .cudaComma
  | .ok cuda' =>
    match spec.limiterTarget with
    | some _ =>
      if limiterTokenAvailable cfg = false then
        .ok ({ runDir := resolvePath cfg.resultsRoot
                 (spec.mode ++ "_" ++ makeRunLabel spec.limiterTarget)
             , spawned := []
             , row :=
                 { mode := spec.mode, limiterTarget := spec.limiterTarget
                 , metrics := emptyBenchMetrics, benchExitCode := 1
                 , benchError := some limiterDisabledMsg, gpu := none } }, cuda')
      else if cfg.hypervisorBinExists = false then
        .error (.missingArtifact "hypervisor binary" cfg.hypervisorBinPath)
      else if cfg.limiterSoExists = false then
        .error (.missingArtifact "cuda limiter library" cfg.limiterSoPath)
      else .ok (v2NormalOutcome cfg ro spec, cuda')
    | none => .ok (v2NormalOutcome cfg ro spec, cuda')

/-- Result of the token-checking variant's matrix loop. -/
structure V2MatrixResult where
  outcomes : List V2Outcome
  cuda : Option String
  abort : Option AbortReason

/-- Sequential matrix loop of the token-checking variant. -/
def runMatrixV2 (cfg : V2Config) (perRun : Nat → RunOracle) :
    List RunSpec → Nat → Option String → V2MatrixResult
  | [], _, cuda => { outcomes := [], cuda := cuda, abort := none }
  | spec :: rest, idx, cuda =>
    match runOneV2 cfg (perRun idx) cuda spec with
    | .error e => { outcomes := [], cuda := cuda, abort := some e }
    | .ok (out, cuda') =>
      let r := runMatrixV2 cfg perRun rest (idx + 1) cuda'
      { outcomes := out :: r.outcomes, cuda := r.cuda, abort := r.abort }

/- ===================== Spec-side definitions ===================== -/

/-- Arithmetic mean of a list of rationals, written from the spec's words
(for comparison with the sampler's reduction). -/
def meanOf (l : List Rat) : Rat := l.sum / l.length

/-- Per-metric arithmetic mean of a sample sequence, written from the
spec's words. -/
def specTelemetryAvg (l : List GpuSample) : GpuMetrics :=
  { utilGpu := meanOf (l.map (fun s => s.utilGpu))
  , utilMem := meanOf (l.map (fun s => s.utilMem))
  , memUsedMiB := meanOf (l.map (fun s => s.memUsedMiB))
  , memTotalMiB := meanOf (l.map (fun s => s.memTotalMiB))
  , powerW := meanOf (l.map (fun s => s.powerW))
  , tempC := meanOf (l.map (fun s => s.tempC)) }

/-- x is the maximum of the list: it occurs in it and bounds it. -/
def isMaxOf (x : Rat) (l : List Rat) : Prop := x ∈ l ∧ ∀ y ∈ l, y ≤ x

/- ===================== Concrete fixtures ===================== -/

/-- A per-run oracle in which everything succeeds and nothing is observed. -/
def okOracle : RunOracle :=
  { limiterReady := true, serverReady := true, readinessError := ""
  , benchExitCode := 0, benchOutput := "", gpuSamples := []
  , kvCacheBytesFromLog := none }

/-- A configuration whose hypervisor binary is absent. -/
def cxMissingBinConfig : Config :=
  { resultsRoot := "/repo/results/20260101_000000", portA := "8000"
  , modelName := "Qwen/Qwen2.5-0.5B", gpuUtilSingle := "0.75"
  , gpuUtilDouble := "0.36", maxModelLen := none, envKvCacheBytes := none
  , hypervisorBinExists := false
  , hypervisorBinPath := "/vgpu/target/release/hypervisor"
  , limiterSoExists := true
  , limiterSoPath := "/vgpu/target/release/libcuda_limiter.so" }

/-- A configuration with both limiter artifacts present. -/
def goodConfig : Config :=
  { resultsRoot := "/repo/results/20260101_000000", portA := "8000"
  , modelName := "Qwen/Qwen2.5-0.5B", gpuUtilSingle := "0.75"
  , gpuUtilDouble := "0.36", maxModelLen := none, envKvCacheBytes := none
  , hypervisorBinExists := true
  , hypervisorBinPath := "/vgpu/target/release/hypervisor"
  , limiterSoExists := true
  , limiterSoPath := "/vgpu/target/release/libcuda_limiter.so" }

/-- An endpoint that answers 200 immediately, with instantaneous polls. -/
def pollOk200 : PollOracle := { result := fun _ => .status 200, dur := fun _ => 0 }

/-- An endpoint that always answers 503, with instantaneous polls. -/
def poll503 : PollOracle := { result := fun _ => .status 503, dur := fun _ => 0 }

/-- A token-checking-variant configuration whose token file holds only
whitespace (so the trimmed credential is empty). -/
def v2NoTokenConfig : V2Config :=
  { resultsRoot := "/repo/results/20260101_000000", portA := "8000"
  , modelName := "Qwen/Qwen2.5-0.5B", gpuUtilSingle := "0.75"
  , gpuUtilDouble := "0.36", maxModelLen := none
  , tokenFileContent := some "  \n"
  , hypervisorBinExists := false
  , hypervisorBinPath := "/vgpu/target/release/hypervisor"
  , limiterSoExists := false
  , limiterSoPath := "/vgpu/target/release/libcuda_limiter.so" }

/-- A filesystem on which every removal fails with EACCES. -/
def fsFailOracle : FsOracle :=
  { rmResult := fun _ => .error "EACCES", pathExists := fun _ => true }

/-- The client-output text of the metric-parsing scenario. -/
def c7Text : String := "Tokens per second: 123.4\nP99 latency (ms): 56.7\n"

/-- Number of rows in a result sequence whose identity key equals k. -/
def keyCount (k : String × Option Rat) (l : List RunOutcome) : Nat :=
  l.countP (fun o => decide (outKey o = k))

/-- First sample of the telemetry witness. -/
def cSampleA : GpuSample :=
  { timestampMs := 0, utilGpu := 10, utilMem := 20, memUsedMiB := 1000
  , memTotalMiB := 8000, powerW := 50, tempC := 40 }

/-- Second sample of the telemetry witness. -/
def cSampleB : GpuSample :=
  { timestampMs := 1000, utilGpu := 30, utilMem := 40, memUsedMiB := 3000
  , memTotalMiB := 8000, powerW := 70, tempC := 60 }

/-- An everything-succeeds oracle whose server log yields a kv-cache size. -/
def kvOracle : RunOracle :=
  { limiterReady := true, serverReady := true, readinessError := ""
  , benchExitCode := 0, benchOutput := "", gpuSamples := []
  , kvCacheBytesFromLog := some 1234567 }

/-- The expected summary of the two witness samples. -/
def cStatsAB : GpuStats :=
  { samples := 2
  , avg := { utilGpu := 20, utilMem := 30, memUsedMiB := 2000
           , memTotalMiB := 8000, powerW := 60, tempC := 50 }
  , max := { utilGpu := 30, utilMem := 40, memUsedMiB := 3000
           , memTotalMiB := 8000, powerW := 70, tempC := 60 } }

/- ===================== Helper lemmas ===================== -/

theorem listSum_eq_sum (l : List Rat) : listSum l = l.sum := by
  rw [listSum, List.sum_eq_foldl]

theorem foldlMax_spec (xs : List Rat) (a : Rat) :
    (xs.foldl (fun x y => if x < y then y else x) a = a ∨
      xs.foldl (fun x y => if x < y then y else x) a ∈ xs) ∧
    a ≤ xs.foldl (fun x y => if x < y then y else x) a ∧
    ∀ y ∈ xs, y ≤ xs.foldl (fun x y => if x < y then y else x) a := by
  induction xs generalizing a with
  | nil => simp
  | cons b xs ih =>
    simp only [List.foldl_cons, List.mem_cons]
    obtain ⟨hm, hle, hall⟩ := ih (if a < b then b else a)
    refine ⟨?_, ?_, ?_⟩
    · rcases hm with hm | hm
      · rw [hm]; split
        · exact Or.inr (Or.inl rfl)
        · exact Or.inl rfl
      · exact Or.inr (Or.inr hm)
    · refine le_trans ?_ hle
      split
      · exact le_of_lt (by assumption)
      · exact le_rfl
    · intro y hy
      rcases hy with hy | hy
      · subst hy
        refine le_trans ?_ hle
        split
        · exact le_rfl
        · exact le_of_not_lt (by assumption)
      · exact hall y hy

theorem listMax_isMaxOf (l : List Rat) (h : l ≠ []) : isMaxOf (listMax l) l := by
  match l, h with
  | x :: xs, _ =>
    obtain ⟨hm, hle, hall⟩ := foldlMax_spec xs x
    refine ⟨?_, ?_⟩
    · rcases hm with hm | hm
      · rw [listMax, hm]; exact List.mem_cons_self x xs
      · exact List.mem_cons_of_mem x hm
    · intro y hy
      rcases List.mem_cons.mp hy with hy | hy
      · subst hy; exact hle
      · exact hall y hy

theorem string_append_ne (p a b : String) (h : a ≠ b) : p ++ a ≠ p ++ b := by
  intro he
  apply h
  have hd := congrArg String.data he
  simp only [String.data_append] at hd
  exact String.ext (List.append_cancel_left hd)

theorem resolvePath_ne (r a b : String) (h : a ≠ b) :
    resolvePath r a ≠ resolvePath r b :=
  string_append_ne (r ++ "/") a b h

theorem hasComma_ne_empty {s : String} (h : hasComma s = true) : (s == "") = false := by
  have hmem : ',' ∈ s.data := by
    have := h
    rw [hasComma] at this
    exact List.elem_iff.mp this
  have hne : s ≠ "" := by
    intro he
    subst he
    simp at hmem
  exact beq_eq_false_iff_ne.mpr hne

theorem ensureSingle_ok (c : Option String) (h : cudaOkB c = true) :
    ensureSingleCudaVisible c = .ok (cudaAfter c) := by
  cases c with
  | none => rfl
  | some s =>
    have hnc : hasComma s = false := by
      simpa [cudaOkB] using h
    rw [ensureSingleCudaVisible, cudaAfter]
    simp only [Option.getD_some, hnc, Bool.and_false]
    by_cases hs : jsTruthy (some s) = true
    · simp [hs]
    · simp only [Bool.not_eq_true] at hs
      simp [hs]

theorem ensureSingle_error {s : String} (h : hasComma s = true) :
    ensureSingleCudaVisible (some s) =
      .error "CUDA_VISIBLE_DEVICES must expose exactly one GPU (no comma)." := by
  have ht : jsTruthy (some s) = true := by
    simp [jsTruthy, hasComma_ne_empty h]
  rw [ensureSingleCudaVisible]
  simp [ht, h]

theorem cudaOkB_after (c : Option String) (h : cudaOkB c = true) :
    cudaOkB (cudaAfter c) = true := by
  rw [cudaAfter]
  split
  · exact h
  · decide

theorem cudaAfter_unset {c : Option String} (h : jsTruthy c = false) :
    cudaAfter c = some "0" := by
  rw [cudaAfter, h]
  simp

theorem countP_eq_one_of_nodup_mem {α : Type} [DecidableEq α] :
    ∀ (l : List α) (a : α), l.Nodup → a ∈ l →
      l.countP (fun x => decide (x = a)) = 1 := by
  intro l a h hm
  induction l with
  | nil => simp at hm
  | cons b t ih =>
    rw [List.countP_cons]
    rcases List.mem_cons.mp hm with rfl | hmem
    · have hb := (List.nodup_cons.mp h).1
      have ht0 : t.countP (fun x => decide (x = a)) = 0 := by
        refine List.countP_eq_zero.mpr ?_
        intro x hx
        simp only [decide_eq_true_eq]
        intro he
        exact hb (he ▸ hx)
      simp [ht0]
    · have hb := (List.nodup_cons.mp h).1
      have hcnt := ih (List.nodup_cons.mp h).2 hmem
      have hba : ¬(b = a) := fun he => hb (he ▸ hmem)
      simp [hcnt, hba]

theorem mkHalf_mul_ten : mkRat 1 2 * 10 = 5 := by
  rw [Rat.mkRat_eq_div]
  norm_num

theorem fracHalf : fracDigitChars 64 (mkRat 1 2) = ['5'] := by
  have h1 : fracDigitChars 64 (mkRat 1 2) =
      Char.ofNat (48 + (Rat.floor (mkRat 1 2 * 10)).toNat) ::
        fracDigitChars 63 (mkRat 1 2 * 10 - Rat.floor (mkRat 1 2 * 10)) := by
    rw [fracDigitChars]
    rw [if_neg (by decide : ¬(mkRat 1 2 = 0))]
  rw [h1, mkHalf_mul_ten]
  have h5 : Rat.floor (5 : Rat) = 5 := by decide
  rw [h5]
  have hz : (5 : Rat) - ((5 : Int) : Rat) = 0 := by norm_num
  rw [hz]
  rw [fracDigitChars]
  rw [if_pos rfl]
  decide

theorem jsNumHalf : jsNumToString (mkRat 1 2) = "0.5" := by
  rw [jsNumToString]
  have hneg : ¬(mkRat 1 2 < 0) := by decide
  simp only [if_neg hneg]
  have hf : Rat.floor (mkRat 1 2) = 0 := by decide
  rw [hf]
  simp only [Int.cast_zero, sub_zero, Int.toNat_zero]
  rw [if_neg (by decide : ¬(mkRat 1 2 = 0))]
  rw [fracHalf]
  decide

theorem makeRunLabel_half : makeRunLabel (some (mkRat 1 2)) = "limit_0.5" := by
  rw [makeRunLabel, jsNumHalf]
  decide

theorem firstEscalationTick_gt (t : Nat) : t < firstEscalationTick t := by
  have h := Nat.div_add_mod t 200
  have h2 : t % 200 < 200 := Nat.mod_lt _ (by norm_num)
  rw [firstEscalationTick]
  omega

/- ===================== Claim theorems ===================== -/

/-- C4: killProcessTree sends SIGTERM to the whole process group first; a
SIGKILL to the same group is attempted only strictly after the grace
period (at the watchdog's first tick past timeoutMs) and is delivered only
when the group still exists then; an ESRCH at either phase (the group
already gone) produces no logged error and, at the first phase, no
escalation at all. -/
theorem c4_terminate_two_phase (p : Nat) (o : KillOracle) (timeoutMs : Nat) :
    (∀ a, (killProcessTree (some p) o timeoutMs).sigkillAttemptAt = some a →
      timeoutMs < a) ∧
    (o.termResult = .esrch →
      killProcessTree (some p) o timeoutMs =
        { sigtermDelivered := false, sigkillAttemptAt := none,
          sigkillDelivered := false, loggedErrors := [] }) ∧
    (o.termResult = .delivered →
      (killProcessTree (some p) o timeoutMs).sigtermDelivered = true ∧
      (killProcessTree (some p) o timeoutMs).sigkillAttemptAt =
        some (firstEscalationTick timeoutMs)) ∧
    (o.termResult = .delivered → o.killResult = .esrch →
      (killProcessTree (some p) o timeoutMs).sigkillDelivered = false ∧
      (killProcessTree (some p) o timeoutMs).loggedErrors = []) ∧
    ((killProcessTree (some p) o timeoutMs).sigkillDelivered = true →
      (killProcessTree (some p) o timeoutMs).sigtermDelivered = true ∧
      o.killResult = .delivered) := by
  obtain ⟨tr, kr⟩ := o
  cases tr <;> cases kr <;> simp_all [killProcessTree] <;>
    all_goals exact firstEscalationTick_gt timeoutMs

/-- C4 witness: a live group that receives SIGTERM, exits within the grace
period, and whose SIGKILL attempt therefore hits ESRCH: nothing is
delivered at phase two and nothing is logged. -/
theorem c4_terminate_two_phase_witness :
    (killProcessTree (some 4242)
        { termResult := .delivered, killResult := .esrch } 5000).sigkillDelivered = false ∧
    (killProcessTree (some 4242)
        { termResult := .delivered, killResult := .esrch } 5000).loggedErrors = [] :=
  (c4_terminate_two_phase 4242
      { termResult := .delivered, killResult := .esrch } 5000).2.2.2.1 rfl rfl

/-- C6: the sampler's stop returns null exactly for an empty sample
sequence; otherwise it returns the sample count, the per-metric arithmetic
mean as avg, and the per-metric maximum as max. -/
theorem c6_telemetry_reduction (l : List GpuSample) :
    (l = [] → gpuStatsOf l = none) ∧
    (∀ st, gpuStatsOf l = some st →
      st.samples = l.length ∧
      st.avg = specTelemetryAvg l ∧
      isMaxOf st.max.utilGpu (l.map (fun s => s.utilGpu)) ∧
      isMaxOf st.max.utilMem (l.map (fun s => s.utilMem)) ∧
      isMaxOf st.max.memUsedMiB (l.map (fun s => s.memUsedMiB)) ∧
      isMaxOf st.max.memTotalMiB (l.map (fun s => s.memTotalMiB)) ∧
      isMaxOf st.max.powerW (l.map (fun s => s.powerW)) ∧
      isMaxOf st.max.tempC (l.map (fun s => s.tempC))) ∧
    (l ≠ [] → (gpuStatsOf l).isSome = true) := by
  refine ⟨fun h => by subst h; rfl, ?_, ?_⟩
  · intro st hst
    cases l with
    | nil => simp [gpuStatsOf] at hst
    | cons x xs =>
      have hne : (x :: xs : List GpuSample) ≠ [] := by simp
      have hx : gpuStatsOf (x :: xs) = some
          { samples := (x :: xs).length
          , avg :=
              { utilGpu := listSum ((x :: xs).map (fun s => s.utilGpu)) / (x :: xs).length
              , utilMem := listSum ((x :: xs).map (fun s => s.utilMem)) / (x :: xs).length
              , memUsedMiB := listSum ((x :: xs).map (fun s => s.memUsedMiB)) / (x :: xs).length
              , memTotalMiB := listSum ((x :: xs).map (fun s => s.memTotalMiB)) / (x :: xs).length
              , powerW := listSum ((x :: xs).map (fun s => s.powerW)) / (x :: xs).length
              , tempC := listSum ((x :: xs).map (fun s => s.tempC)) / (x :: xs).length }
          , max :=
              { utilGpu := listMax ((x :: xs).map (fun s => s.utilGpu))
              , utilMem := listMax ((x :: xs).map (fun s => s.utilMem))
              , memUsedMiB := listMax ((x :: xs).map (fun s => s.memUsedMiB))
              , memTotalMiB := listMax ((x :: xs).map (fun s => s.memTotalMiB))
              , powerW := listMax ((x :: xs).map (fun s => s.powerW))
              , tempC := listMax ((x :: xs).map (fun s => s.tempC)) } } := rfl
      rw [hx] at hst
      cases hst
      refine ⟨rfl, ?_, ?_, ?_, ?_, ?_, ?_, ?_⟩
      · simp only [specTelemetryAvg, meanOf, listSum_eq_sum, List.length_map]
      all_goals exact listMax_isMaxOf _ (by simp)
  · intro h
    cases l with
    | nil => exact absurd rfl h
    | cons x xs => rfl

/-- C6 witness: the reduction evaluated on an empty and on a two-sample
sequence. -/
theorem c6_telemetry_reduction_witness :
    gpuStatsOf [] = none ∧
    (cStatsAB.samples = [cSampleA, cSampleB].length ∧
      cStatsAB.avg = specTelemetryAvg [cSampleA, cSampleB] ∧
      isMaxOf cStatsAB.max.utilGpu ([cSampleA, cSampleB].map (fun s => s.utilGpu)) ∧
      isMaxOf cStatsAB.max.utilMem ([cSampleA, cSampleB].map (fun s => s.utilMem)) ∧
      isMaxOf cStatsAB.max.memUsedMiB ([cSampleA, cSampleB].map (fun s => s.memUsedMiB)) ∧
      isMaxOf cStatsAB.max.memTotalMiB ([cSampleA, cSampleB].map (fun s => s.memTotalMiB)) ∧
      isMaxOf cStatsAB.max.powerW ([cSampleA, cSampleB].map (fun s => s.powerW)) ∧
      isMaxOf cStatsAB.max.tempC ([cSampleA, cSampleB].map (fun s => s.tempC))) :=
  ⟨(c6_telemetry_reduction []).1 rfl,
   (c6_telemetry_reduction [cSampleA, cSampleB]).2.1 cStatsAB
     (by norm_num [gpuStatsOf, listSum, listMax, cSampleA, cSampleB, cStatsAB])⟩

theorem c7FindElapsed :
    findFirstNum ("Total elapsed wall time (s):").data isNumChar c7Text.data = none := by
  decide

theorem c7FindTokens :
    findFirstNum ("Total generated tokens:").data (fun c => c.isDigit) c7Text.data = none := by
  decide

theorem c7FindTps :
    findFirstNum ("Tokens per second:").data isNumChar c7Text.data =
      some ['1', '2', '3', '.', '4'] := by
  decide

theorem c7FindP50 :
    findFirstNum ("P50 latency (ms):").data isNumChar c7Text.data = none := by
  decide

theorem c7FindP99 :
    findFirstNum ("P99 latency (ms):").data isNumChar c7Text.data =
      some ['5', '6', '.', '7'] := by
  decide

theorem jsNumTps : jsNumOfDigits ['1', '2', '3', '.', '4'] = some ((1234 : Rat) / 10) := by
  simp [jsNumOfDigits, digitsVal]
  norm_num

theorem jsNumP99 : jsNumOfDigits ['5', '6', '.', '7'] = some ((567 : Rat) / 10) := by
  simp [jsNumOfDigits, digitsVal]
  norm_num

/-- C7: on the two-line scenario text the parser returns exactly
tokensPerSecond = 123.4 and p99Ms = 56.7 with every other key absent; and
in general a pattern with no match in the text leaves its key absent. -/
theorem c7_metric_parsing (t : String) :
    parseBenchOutput c7Text =
      { totalElapsed := none, totalTokens := none
      , tokensPerSecond := some (some ((1234 : Rat) / 10))
      , p50Ms := none, p99Ms := some (some ((567 : Rat) / 10)) } ∧
    (findFirstNum ("Total elapsed wall time (s):").data isNumChar t.data = none →
      (parseBenchOutput t).totalElapsed = none) ∧
    (findFirstNum ("Total generated tokens:").data (fun c => c.isDigit) t.data = none →
      (parseBenchOutput t).totalTokens = none) ∧
    (findFirstNum ("Tokens per second:").data isNumChar t.data = none →
      (parseBenchOutput t).tokensPerSecond = none) ∧
    (findFirstNum ("P50 latency (ms):").data isNumChar t.data = none →
      (parseBenchOutput t).p50Ms = none) ∧
    (findFirstNum ("P99 latency (ms):").data isNumChar t.data = none →
      (parseBenchOutput t).p99Ms = none) := by
  refine ⟨?_, ?_, ?_, ?_, ?_, ?_⟩
  · rw [parseBenchOutput]
    rw [c7FindElapsed, c7FindTokens, c7FindTps, c7FindP50, c7FindP99]
    rw [Option.map_some', Option.map_some', jsNumTps, jsNumP99]
    rfl
  all_goals
    intro h
    simp [parseBenchOutput, h]

/-- C7 witness: a text matched by no pattern leaves every key absent. -/
theorem c7_metric_parsing_witness :
    (parseBenchOutput "no metrics here").totalElapsed = none ∧
    (parseBenchOutput "no metrics here").totalTokens = none ∧
    (parseBenchOutput "no metrics here").tokensPerSecond = none ∧
    (parseBenchOutput "no metrics here").p50Ms = none ∧
    (parseBenchOutput "no metrics here").p99Ms = none :=
  ⟨(c7_metric_parsing "no metrics here").2.1 (by decide),
   (c7_metric_parsing "no metrics here").2.2.1 (by decide),
   (c7_metric_parsing "no metrics here").2.2.2.1 (by decide),
   (c7_metric_parsing "no metrics here").2.2.2.2.1 (by decide),
   (c7_metric_parsing "no metrics here").2.2.2.2.2 (by decide)⟩

/-- C9: the scratch-path release is total (it never raises): an undefined
path is a no-op, a nonexistent path (whose forced removal succeeds) ends
with no warning, and a failing removal logs a warning and still returns a
normal trace. -/
theorem c9_cleanup_never_raises (o : FsOracle)
    (hforce : ∀ p, o.pathExists p = false → o.rmResult p = .ok ()) :
    cleanupShmPath o none = { attemptedRemove := false, warned := none } ∧
    (∀ p, o.pathExists p = false →
      cleanupShmPath o (some p) = { attemptedRemove := true, warned := none }) ∧
    (∀ p e, o.rmResult p = .error e →
      cleanupShmPath o (some p) =
        { attemptedRemove := true
        , warned := some ("Failed to remove shared memory path " ++ p ++ ": " ++ e) }) := by
  refine ⟨rfl, ?_, ?_⟩
  · intro p hp
    rw [cleanupShmPath, hforce p hp]
  · intro p e he
    rw [cleanupShmPath, he]

/-- C9 witness: a filesystem where every removal fails: the failing path is
warned about and the call returns normally; an undefined path is a no-op. -/
theorem c9_cleanup_never_raises_witness :
    cleanupShmPath fsFailOracle none = { attemptedRemove := false, warned := none } ∧
    cleanupShmPath fsFailOracle (some "/tmp/tensor-fusion-x") =
      { attemptedRemove := true
      , warned := some ("Failed to remove shared memory path " ++
          "/tmp/tensor-fusion-x" ++ ": " ++ "EACCES") } :=
  ⟨(c9_cleanup_never_raises fsFailOracle
      (fun p h => by simp [fsFailOracle] at h)).1,
   (c9_cleanup_never_raises fsFailOracle
      (fun p h => by simp [fsFailOracle] at h)).2.2 "/tmp/tensor-fusion-x" "EACCES" rfl⟩

theorem cudaOkB_of_untruthy {c : Option String} (h : jsTruthy c = false) :
    cudaOkB c = true := by
  cases c with
  | none => rfl
  | some s =>
    have hs : s = "" := by
      have := h
      simp [jsTruthy] at this
      exact this
    subst hs
    rfl

theorem runOne_comma_error (cfg : Config) (ro : RunOracle) (st : RunState)
    (spec : RunSpec) (s : String) (hst : st.cuda = some s)
    (h : hasComma s = true) : runOne cfg ro st spec = .error .cudaComma := by
  rw [runOne, hst, ensureSingle_error h]

/-- C10: every runOne call, baseline or throttled, first runs the CUDA
guard: an ambient CUDA_VISIBLE_DEVICES containing a comma makes runOne
throw outside the per-run guard, so the matrix stops with no row for that
run; an unset (or empty) value is silently mutated to 0 in the ambient
environment threaded to the rest of the matrix. -/
theorem c10_cuda_env_dependence :
    (∀ (cfg : Config) (ro : RunOracle) (st : RunState) (spec : RunSpec) (s : String),
      st.cuda = some s → hasComma s = true →
      runOne cfg ro st spec = .error .cudaComma) ∧
    (∀ (cfg : Config) (perRun : Nat → RunOracle) (spec : RunSpec)
        (rest : List RunSpec) (idx : Nat) (st : RunState) (s : String),
      st.cuda = some s → hasComma s = true →
      (runMatrix cfg perRun (spec :: rest) idx st).outcomes = [] ∧
      (runMatrix cfg perRun (spec :: rest) idx st).abort = some .cudaComma) ∧
    (∀ (cfg : Config) (ro : RunOracle) (st : RunState) (spec : RunSpec)
        (out : RunOutcome) (st' : RunState),
      jsTruthy st.cuda = false → runOne cfg ro st spec = .ok (out, st') →
      st'.cuda = some "0") ∧
    (∀ (cfg : Config) (ro : RunOracle) (st : RunState) (spec : RunSpec),
      jsTruthy st.cuda = false → spec.limiterTarget = none →
      runOne cfg ro st spec =
        .ok (runOutcomeOf cfg ro st spec,
             { cuda := some "0", kvByMode := kvUpdate st spec ro })) := by
  refine ⟨runOne_comma_error, ?_, ?_, ?_⟩
  · intro cfg perRun spec rest idx st s hst h
    simp [runMatrix, runOne_comma_error cfg (perRun idx) st spec s hst h]
  · intro cfg ro st spec out st' hun hok
    have he : ensureSingleCudaVisible st.cuda = .ok (some "0") := by
      rw [ensureSingle_ok st.cuda (cudaOkB_of_untruthy hun), cudaAfter_unset hun]
    rw [runOne, he] at hok
    cases hp : provisionLimiter cfg ro spec.limiterTarget with
    | error e => rw [hp] at hok; exact absurd hok (by simp)
    | ok u =>
      rw [hp] at hok
      simp only [Except.ok.injEq, Prod.mk.injEq] at hok
      rw [← hok.2]
  · intro cfg ro st spec hun hlt
    have he : ensureSingleCudaVisible st.cuda = .ok (some "0") := by
      rw [ensureSingle_ok st.cuda (cudaOkB_of_untruthy hun), cudaAfter_unset hun]
    rw [runOne, he, hlt]
    rfl

/-- C10 witness: a comma-carrying value aborts a baseline run; an unset
value is rewritten to 0 by a baseline run. -/
theorem c10_cuda_env_dependence_witness :
    runOne goodConfig okOracle
      { cuda := some "0,1", kvByMode := fun _ => none }
      { mode := "single", limiterTarget := none } = .error .cudaComma ∧
    runOne goodConfig okOracle
      { cuda := none, kvByMode := fun _ => none }
      { mode := "single", limiterTarget := none } =
      .ok (runOutcomeOf goodConfig okOracle
             { cuda := none, kvByMode := fun _ => none }
             { mode := "single", limiterTarget := none },
           { cuda := some "0"
           , kvByMode := kvUpdate { cuda := none, kvByMode := fun _ => none }
               { mode := "single", limiterTarget := none } okOracle }) :=
  ⟨c10_cuda_env_dependence.1 goodConfig okOracle
      { cuda := some "0,1", kvByMode := fun _ => none }
      { mode := "single", limiterTarget := none } "0,1" rfl (by decide),
   c10_cuda_env_dependence.2.2.2 goodConfig okOracle
      { cuda := none, kvByMode := fun _ => none }
      { mode := "single", limiterTarget := none } rfl rfl⟩

/-- C2: in the token-checking variant, a throttled run whose credential is
missing or empty is short-circuited: nothing is spawned, a
limiter-disabled diagnostic is recorded as the run's error with exit code
1, the row is pushed, and the matrix continues with the remaining runs. -/
theorem c2_token_short_circuit (cfg : V2Config) (perRun : Nat → RunOracle)
    (cuda : Option String) (spec : RunSpec) (rest : List RunSpec) (idx : Nat)
    (u : Rat) (hlt : spec.limiterTarget = some u)
    (htok : limiterTokenAvailable cfg = false)
    (hc : cudaOkB cuda = true) :
    runOneV2 cfg (perRun idx) cuda spec =
      .ok ({ runDir := resolvePath cfg.resultsRoot
               (spec.mode ++ "_" ++ makeRunLabel spec.limiterTarget)
           , spawned := []
           , row := { mode := spec.mode, limiterTarget := spec.limiterTarget
                    , metrics := emptyBenchMetrics, benchExitCode := 1
                    , benchError := some limiterDisabledMsg, gpu := none } },
           cudaAfter cuda) ∧
    (runMatrixV2 cfg perRun (spec :: rest) idx cuda).outcomes =
      { runDir := resolvePath cfg.resultsRoot
          (spec.mode ++ "_" ++ makeRunLabel spec.limiterTarget)
      , spawned := []
      , row := { mode := spec.mode, limiterTarget := spec.limiterTarget
               , metrics := emptyBenchMetrics, benchExitCode := 1
               , benchError := some limiterDisabledMsg, gpu := none } } ::
        (runMatrixV2 cfg perRun rest (idx + 1) (cudaAfter cuda)).outcomes ∧
    (runMatrixV2 cfg perRun (spec :: rest) idx cuda).abort =
      (runMatrixV2 cfg perRun rest (idx + 1) (cudaAfter cuda)).abort := by
  have h1 : runOneV2 cfg (perRun idx) cuda spec =
      .ok ({ runDir := resolvePath cfg.resultsRoot
               (spec.mode ++ "_" ++ makeRunLabel spec.limiterTarget)
           , spawned := []
           , row := { mode := spec.mode, limiterTarget := spec.limiterTarget
                    , metrics := emptyBenchMetrics, benchExitCode := 1
                    , benchError := some limiterDisabledMsg, gpu := none } },
           cudaAfter cuda) := by
    rw [runOneV2, ensureSingle_ok cuda hc, hlt]
    simp [htok, hlt]
  refine ⟨h1, ?_, ?_⟩ <;> simp [runMatrixV2, h1]

/-- C2 witness: a whitespace-only token file short-circuits a throttled
run even though neither limiter artifact exists. -/
theorem c2_token_short_circuit_witness :
    runOneV2 v2NoTokenConfig okOracle (some "0")
      { mode := "single", limiterTarget := some ((1 : Rat)/2) } =
      .ok ({ runDir := resolvePath v2NoTokenConfig.resultsRoot
               ("single" ++ "_" ++ makeRunLabel (some ((1 : Rat)/2)))
           , spawned := []
           , row := { mode := "single", limiterTarget := some ((1 : Rat)/2)
                    , metrics := emptyBenchMetrics, benchExitCode := 1
                    , benchError := some limiterDisabledMsg, gpu := none } },
           cudaAfter (some "0")) :=
  (c2_token_short_circuit v2NoTokenConfig (fun _ => okOracle) (some "0")
    { mode := "single", limiterTarget := some ((1 : Rat)/2) } [] 0 ((1 : Rat)/2)
    rfl (by decide) (by decide)).1

/- ===================== Matrix machinery ===================== -/

theorem provisionLimiter_ok (cfg : Config) (ro : RunOracle) (lt : Option Rat)
    (h1 : cfg.hypervisorBinExists = true) (h2 : cfg.limiterSoExists = true)
    (h3 : ro.limiterReady = true) : provisionLimiter cfg ro lt = .ok () := by
  cases lt <;> simp [provisionLimiter, h1, h2, h3]

theorem runOne_ok (cfg : Config) (ro : RunOracle) (st : RunState) (spec : RunSpec)
    (hc : cudaOkB st.cuda = true)
    (hp : provisionLimiter cfg ro spec.limiterTarget = .ok ()) :
    runOne cfg ro st spec =
      .ok (runOutcomeOf cfg ro st spec,
           { cuda := cudaAfter st.cuda, kvByMode := kvUpdate st spec ro }) := by
  rw [runOne, ensureSingle_ok st.cuda hc, hp]

theorem benchRow_mode (ro : RunOracle) (spec : RunSpec) :
    (benchRow ro spec).mode = spec.mode := by
  rw [benchRow]; split <;> rfl

theorem benchRow_limiterTarget (ro : RunOracle) (spec : RunSpec) :
    (benchRow ro spec).limiterTarget = spec.limiterTarget := by
  rw [benchRow]; split <;> rfl

theorem outKey_runOutcomeOf (cfg : Config) (ro : RunOracle) (st : RunState)
    (spec : RunSpec) : outKey (runOutcomeOf cfg ro st spec) = specKey spec := by
  simp [outKey, runOutcomeOf, benchRow_mode, benchRow_limiterTarget, specKey]

theorem runDir_runOutcomeOf (cfg : Config) (ro : RunOracle) (st : RunState)
    (spec : RunSpec) : (runOutcomeOf cfg ro st spec).runDir = runDirOf cfg spec :=
  rfl

theorem runMatrix_total (cfg : Config) (perRun : Nat → RunOracle)
    (h1 : cfg.hypervisorBinExists = true) (h2 : cfg.limiterSoExists = true)
    (h3 : ∀ i, (perRun i).limiterReady = true) :
    ∀ (specs : List RunSpec) (idx : Nat) (st : RunState),
      cudaOkB st.cuda = true →
      (runMatrix cfg perRun specs idx st).abort = none ∧
      (runMatrix cfg perRun specs idx st).outcomes.map outKey = specs.map specKey ∧
      (runMatrix cfg perRun specs idx st).outcomes.map (fun o => o.runDir) =
        specs.map (fun s => runDirOf cfg s) ∧
      cudaOkB (runMatrix cfg perRun specs idx st).state.cuda = true
  | [], idx, st, hc => by simp [runMatrix, hc]
  | spec :: rest, idx, st, hc => by
    have hp := provisionLimiter_ok cfg (perRun idx) spec.limiterTarget h1 h2 (h3 idx)
    have hro := runOne_ok cfg (perRun idx) st spec hc hp
    have ih := runMatrix_total cfg perRun h1 h2 h3 rest (idx + 1)
      { cuda := cudaAfter st.cuda, kvByMode := kvUpdate st spec (perRun idx) }
      (cudaOkB_after st.cuda hc)
    simp only [runMatrix, hro]
    simp [ih.1, ih.2.1, ih.2.2.1, ih.2.2.2, outKey_runOutcomeOf,
      runDir_runOutcomeOf]

theorem enumSpecs_map_specKey_false (modes : List String) (utils : List Rat) :
    (enumSpecs modes utils false).map specKey =
      modes.map (fun m => (m, (none : Option Rat))) ++
      utils.flatMap (fun u => modes.map (fun m => (m, (some u : Option Rat)))) := by
  simp [enumSpecs, specKey, List.map_flatMap, List.map_map, Function.comp_def]

theorem enumSpecs_map_specKey_true (modes : List String) (utils : List Rat) :
    (enumSpecs modes utils true).map specKey =
      utils.flatMap (fun u => modes.map (fun m => (m, (some u : Option Rat)))) := by
  simp [enumSpecs, specKey, List.map_flatMap, List.map_map, Function.comp_def]

theorem flat_keys_nodup (modes : List String) (utils : List Rat)
    (hm : modes.Nodup) (hu : utils.Nodup) :
    (utils.flatMap
      (fun u => modes.map (fun m => (m, (some u : Option Rat))))).Nodup := by
  rw [List.nodup_flatMap]
  constructor
  · intro u _
    refine hm.map ?_
    intro a b h
    simpa using h
  · refine hu.imp ?_
    intro a b hab x hxa hxb
    simp only [List.mem_map] at hxa hxb
    obtain ⟨m1, _, rfl⟩ := hxa
    obtain ⟨m2, _, hx2⟩ := hxb
    exact hab (by simpa using congrArg Prod.snd hx2.symm)

theorem enum_keys_nodup (modes : List String) (utils : List Rat) (sb : Bool)
    (hm : modes.Nodup) (hu : utils.Nodup) :
    ((enumSpecs modes utils sb).map specKey).Nodup := by
  cases sb with
  | true =>
    rw [enumSpecs_map_specKey_true]
    exact flat_keys_nodup modes utils hm hu
  | false =>
    rw [enumSpecs_map_specKey_false]
    refine List.Nodup.append ?_ (flat_keys_nodup modes utils hm hu) ?_
    · refine hm.map ?_
      intro a b h
      simpa using h
    · intro x hx1 hx2
      simp only [List.mem_map] at hx1
      obtain ⟨m1, _, rfl⟩ := hx1
      simp only [List.mem_flatMap, List.mem_map] at hx2
      obtain ⟨u, _, m2, _, hx2⟩ := hx2
      simpa using congrArg Prod.snd hx2

/-- C1 (amended): provided every run passes provisioning (a well-formed
CUDA_VISIBLE_DEVICES, and for throttled runs both limiter artifacts
present and a hypervisor that becomes ready), the matrix — with or without
skip-baseline, over duplicate-free modes and targets — finishes without
aborting and its result sequence holds exactly one row per enumerated
(mode, limiterTarget) key, including for runs whose server readiness or
bench client failed. -/
theorem c1_exactly_one_result_per_spec (cfg : Config) (perRun : Nat → RunOracle)
    (modes : List String) (utils : List Rat) (skipBaseline : Bool)
    (cuda0 : Option String) (hm : modes.Nodup) (hu : utils.Nodup)
    (hc : cudaOkB cuda0 = true) (h1 : cfg.hypervisorBinExists = true)
    (h2 : cfg.limiterSoExists = true) (h3 : ∀ i, (perRun i).limiterReady = true) :
    (mainMatrix cfg perRun modes utils skipBaseline cuda0).abort = none ∧
    (mainMatrix cfg perRun modes utils skipBaseline cuda0).outcomes.length =
      (enumSpecs modes utils skipBaseline).length ∧
    ∀ s ∈ enumSpecs modes utils skipBaseline,
      keyCount (specKey s)
        (mainMatrix cfg perRun modes utils skipBaseline cuda0).outcomes = 1 := by
  have h := runMatrix_total cfg perRun h1 h2 h3
    (enumSpecs modes utils skipBaseline) 0
    { cuda := cuda0, kvByMode := fun _ => none } hc
  refine ⟨h.1, ?_, ?_⟩
  · have hl := congrArg List.length h.2.1
    simpa [mainMatrix] using hl
  · intro s hs
    have hcp : keyCount (specKey s)
        (mainMatrix cfg perRun modes utils skipBaseline cuda0).outcomes =
        ((mainMatrix cfg perRun modes utils skipBaseline cuda0).outcomes.map outKey).countP
          (fun x => decide (x = specKey s)) := by
      rw [List.countP_map]
      rfl
    rw [hcp]
    show ((runMatrix cfg perRun (enumSpecs modes utils skipBaseline) 0
      { cuda := cuda0, kvByMode := fun _ => none }).outcomes.map outKey).countP
        (fun x => decide (x = specKey s)) = 1
    rw [h.2.1]
    exact countP_eq_one_of_nodup_mem _ _
      (enum_keys_nodup modes utils skipBaseline hm hu)
      (List.mem_map_of_mem specKey hs)

/-- C1 counterexample: with the hypervisor binary absent, the single
enumerated throttled run aborts the whole matrix before the per-run guard,
and the result sequence holds no row at all for its key — refuting the
claim that every enumerated RunSpec yields exactly one RunResult even when
a required external binary is missing. -/
theorem c1_missing_binary_drops_run :
    enumSpecs ["single"] [mkRat 1 2] true =
      [{ mode := "single", limiterTarget := some (mkRat 1 2) }] ∧
    (mainMatrix cxMissingBinConfig (fun _ => okOracle) ["single"] [mkRat 1 2]
        true (some "0")).abort =
      some (.missingArtifact "hypervisor binary" "/vgpu/target/release/hypervisor") ∧
    keyCount ("single", some (mkRat 1 2))
      (mainMatrix cxMissingBinConfig (fun _ => okOracle) ["single"] [mkRat 1 2]
        true (some "0")).outcomes = 0 := by
  refine ⟨rfl, rfl, rfl⟩

/-- C1 witness: a two-cell matrix (one baseline, one throttled, the
throttled one failing its benchmark) still yields exactly one row per key. -/
theorem c1_exactly_one_result_per_spec_witness :
    keyCount ("single", some (mkRat 1 2))
      (mainMatrix goodConfig (fun _ => okOracle) ["single"] [mkRat 1 2] false
        (some "0")).outcomes = 1 :=
  (c1_exactly_one_result_per_spec goodConfig (fun _ => okOracle) ["single"]
    [mkRat 1 2] false (some "0") (by decide) (by simp) (by decide) rfl rfl
    (fun i => rfl)).2.2
    { mode := "single", limiterTarget := some (mkRat 1 2) } (by decide)

/-- C8: the matrix modes=[single], utils=[0.5], skip-baseline=false
produces, when provisioning succeeds, exactly the ordered key sequence
baseline-then-throttled for mode single, with the two distinct per-run
output directories single_baseline and single_limit_0.5. -/
theorem c8_single_half_matrix (cfg : Config) (perRun : Nat → RunOracle)
    (cuda0 : Option String) (hc : cudaOkB cuda0 = true)
    (h1 : cfg.hypervisorBinExists = true) (h2 : cfg.limiterSoExists = true)
    (h3 : ∀ i, (perRun i).limiterReady = true) :
    (mainMatrix cfg perRun ["single"] [mkRat 1 2] false cuda0).abort = none ∧
    (mainMatrix cfg perRun ["single"] [mkRat 1 2] false cuda0).outcomes.map outKey =
      [("single", (none : Option Rat)), ("single", some (mkRat 1 2))] ∧
    (mainMatrix cfg perRun ["single"] [mkRat 1 2] false cuda0).outcomes.map
        (fun o => o.runDir) =
      [resolvePath cfg.resultsRoot "single_baseline",
       resolvePath cfg.resultsRoot "single_limit_0.5"] ∧
    resolvePath cfg.resultsRoot "single_baseline" ≠
      resolvePath cfg.resultsRoot "single_limit_0.5" := by
  have h := runMatrix_total cfg perRun h1 h2 h3
    (enumSpecs ["single"] [mkRat 1 2] false) 0
    { cuda := cuda0, kvByMode := fun _ => none } hc
  have hspecs : enumSpecs ["single"] [mkRat 1 2] false =
      [{ mode := "single", limiterTarget := none },
       { mode := "single", limiterTarget := some (mkRat 1 2) }] := rfl
  have hkeys : (enumSpecs ["single"] [mkRat 1 2] false).map specKey =
      [("single", (none : Option Rat)), ("single", some (mkRat 1 2))] := rfl
  have hdirs : (enumSpecs ["single"] [mkRat 1 2] false).map
      (fun s => runDirOf cfg s) =
      [resolvePath cfg.resultsRoot "single_baseline",
       resolvePath cfg.resultsRoot "single_limit_0.5"] := by
    have e1 : ("single" ++ "_" ++ "baseline" : String) = "single_baseline" := by
      decide
    have e2 : ("single" ++ "_" ++ "limit_0.5" : String) = "single_limit_0.5" := by
      decide
    rw [hspecs]
    simp only [List.map_cons, List.map_nil, runDirOf, makeRunLabel_half,
      show (makeRunLabel none) = "baseline" from rfl, e1, e2]
  refine ⟨h.1, ?_, ?_, ?_⟩
  · show (runMatrix cfg perRun (enumSpecs ["single"] [mkRat 1 2] false) 0
      { cuda := cuda0, kvByMode := fun _ => none }).outcomes.map outKey = _
    rw [h.2.1, hkeys]
  · show (runMatrix cfg perRun (enumSpecs ["single"] [mkRat 1 2] false) 0
      { cuda := cuda0, kvByMode := fun _ => none }).outcomes.map (fun o => o.runDir) = _
    rw [h.2.2.1, hdirs]
  · exact resolvePath_ne cfg.resultsRoot "single_baseline" "single_limit_0.5"
      (by decide)

/-- C8 witness: the scenario evaluated at a concrete configuration. -/
theorem c8_single_half_matrix_witness :
    (mainMatrix goodConfig (fun _ => okOracle) ["single"] [mkRat 1 2] false
        (some "0")).outcomes.map outKey =
      [("single", (none : Option Rat)), ("single", some (mkRat 1 2))] :=
  (c8_single_half_matrix goodConfig (fun _ => okOracle) (some "0") (by decide)
    rfl rfl (fun i => rfl)).2.1

/- ===================== kv-cache hint lemmas ===================== -/

theorem kvUpdate_throttled (st : RunState) (spec : RunSpec) (ro : RunOracle)
    (u : Rat) (hlt : spec.limiterTarget = some u) :
    kvUpdate st spec ro = st.kvByMode := by
  rw [kvUpdate, hlt]

theorem kvUpdate_baseline_self (st : RunState) (spec : RunSpec) (ro : RunOracle)
    (hlt : spec.limiterTarget = none) :
    kvUpdate st spec ro spec.mode =
      captureApply (st.kvByMode spec.mode) ro.kvCacheBytesFromLog := by
  rw [kvUpdate, hlt]
  cases hkv : ro.kvCacheBytesFromLog with
  | none => rfl
  | some v =>
    rw [captureApply]
    by_cases hv : v = 0
    · simp [hv]
    · simp [hv]

theorem kvUpdate_baseline_other (st : RunState) (spec : RunSpec) (ro : RunOracle)
    (m : String) (hlt : spec.limiterTarget = none) (hm : m ≠ spec.mode) :
    kvUpdate st spec ro m = st.kvByMode m := by
  rw [kvUpdate, hlt]
  cases ro.kvCacheBytesFromLog with
  | none => rfl
  | some v =>
    by_cases hv : v = 0
    · simp [hv]
    · simp [hv, hm]

theorem kvCacheArg_throttled (cfg : Config) (st : RunState) (spec : RunSpec)
    (u : Rat) (hlt : spec.limiterTarget = some u) :
    kvCacheArg cfg st spec = kvArgFor cfg st.kvByMode spec.mode := by
  rw [kvCacheArg, hlt, kvArgFor]

theorem kvCacheArg_baseline (cfg : Config) (st : RunState) (spec : RunSpec)
    (hlt : spec.limiterTarget = none) : kvCacheArg cfg st spec = none := by
  rw [kvCacheArg, hlt]

theorem kvArgFor_congr (cfg : Config) (kv kv' : String → Option Nat) (m : String)
    (h : kv m = kv' m) : kvArgFor cfg kv m = kvArgFor cfg kv' m := by
  rw [kvArgFor, kvArgFor, h]

theorem kvArg_runOutcomeOf (cfg : Config) (ro : RunOracle) (st : RunState)
    (spec : RunSpec) : (runOutcomeOf cfg ro st spec).kvArg = kvCacheArg cfg st spec :=
  rfl

theorem runMatrix_append (cfg : Config) (perRun : Nat → RunOracle) :
    ∀ (l1 l2 : List RunSpec) (idx : Nat) (st : RunState),
      (runMatrix cfg perRun l1 idx st).abort = none →
      runMatrix cfg perRun (l1 ++ l2) idx st =
        { outcomes := (runMatrix cfg perRun l1 idx st).outcomes ++
            (runMatrix cfg perRun l2 (idx + l1.length)
              (runMatrix cfg perRun l1 idx st).state).outcomes
        , state := (runMatrix cfg perRun l2 (idx + l1.length)
            (runMatrix cfg perRun l1 idx st).state).state
        , abort := (runMatrix cfg perRun l2 (idx + l1.length)
            (runMatrix cfg perRun l1 idx st).state).abort }
  | [], l2, idx, st, _ => by simp [runMatrix]
  | spec :: rest, l2, idx, st, hab => by
    cases hro : runOne cfg (perRun idx) st spec with
    | error e =>
      rw [runMatrix, hro] at hab
      exact absurd hab (by simp)
    | ok p =>
      obtain ⟨out, st'⟩ := p
      have hab' : (runMatrix cfg perRun rest (idx + 1) st').abort = none := by
        rw [runMatrix, hro] at hab
        exact hab
      have ih := runMatrix_append cfg perRun rest l2 (idx + 1) st' hab'
      have hidx : idx + (rest.length + 1) = idx + 1 + rest.length := by omega
      simp [runMatrix, hro, ih, hidx]

theorem runMatrix_throttled_phase (cfg : Config) (perRun : Nat → RunOracle)
    (h1 : cfg.hypervisorBinExists = true) (h2 : cfg.limiterSoExists = true)
    (h3 : ∀ i, (perRun i).limiterReady = true) :
    ∀ (specs : List RunSpec) (idx : Nat) (st : RunState),
      cudaOkB st.cuda = true →
      (∀ s ∈ specs, s.limiterTarget.isSome = true) →
      (runMatrix cfg perRun specs idx st).abort = none ∧
      (runMatrix cfg perRun specs idx st).state.kvByMode = st.kvByMode ∧
      ∀ o ∈ (runMatrix cfg perRun specs idx st).outcomes,
        o.row.limiterTarget.isSome = true ∧
        (∃ s ∈ specs, o.row.mode = s.mode) ∧
        o.kvArg = kvArgFor cfg st.kvByMode o.row.mode
  | [], idx, st, hc, hall => by simp [runMatrix]
  | spec :: rest, idx, st, hc, hall => by
    have hsp := hall spec (List.mem_cons_self spec rest)
    obtain ⟨u, hu⟩ := Option.isSome_iff_exists.mp hsp
    have hp := provisionLimiter_ok cfg (perRun idx) spec.limiterTarget h1 h2 (h3 idx)
    have hro := runOne_ok cfg (perRun idx) st spec hc hp
    have hkv : kvUpdate st spec (perRun idx) = st.kvByMode :=
      kvUpdate_throttled st spec (perRun idx) u hu
    have ih := runMatrix_throttled_phase cfg perRun h1 h2 h3 rest (idx + 1)
      { cuda := cudaAfter st.cuda, kvByMode := kvUpdate st spec (perRun idx) }
      (cudaOkB_after st.cuda hc)
      (fun s hs => hall s (List.mem_cons_of_mem spec hs))
    refine ⟨?_, ?_, ?_⟩
    · simp [runMatrix, hro, ih.1]
    · simp only [runMatrix, hro]
      rw [ih.2.1]
      exact hkv
    · intro o ho
      simp only [runMatrix, hro, List.mem_cons] at ho
      rcases ho with rfl | ho
      · refine ⟨?_, ⟨spec, List.mem_cons_self spec rest, ?_⟩, ?_⟩
        · rw [show (runOutcomeOf cfg (perRun idx) st spec).row.limiterTarget =
              spec.limiterTarget from benchRow_limiterTarget (perRun idx) spec]
          exact hsp
        · exact benchRow_mode (perRun idx) spec
        · rw [kvArg_runOutcomeOf, kvCacheArg_throttled cfg st spec u hu,
            show (runOutcomeOf cfg (perRun idx) st spec).row.mode = spec.mode from
              benchRow_mode (perRun idx) spec]
      · obtain ⟨hsome, ⟨s, hsmem, hmode⟩, hkvarg⟩ := ih.2.2 o ho
        refine ⟨hsome, ⟨s, List.mem_cons_of_mem spec hsmem, hmode⟩, ?_⟩
        rw [hkvarg]
        exact kvArgFor_congr cfg _ _ _ (by rw [hkv])

theorem runMatrix_baseline_phase (cfg : Config) (perRun : Nat → RunOracle) :
    ∀ (modes : List String) (idx : Nat) (st : RunState),
      cudaOkB st.cuda = true → modes.Nodup →
      (runMatrix cfg perRun
        (modes.map (fun m => { mode := m, limiterTarget := none })) idx st).abort =
          none ∧
      cudaOkB (runMatrix cfg perRun
        (modes.map (fun m => { mode := m, limiterTarget := none })) idx
          st).state.cuda = true ∧
      (∀ m, m ∉ modes →
        (runMatrix cfg perRun
          (modes.map (fun m => { mode := m, limiterTarget := none })) idx
            st).state.kvByMode m = st.kvByMode m) ∧
      (∀ m ∈ modes,
        (runMatrix cfg perRun
          (modes.map (fun m => { mode := m, limiterTarget := none })) idx
            st).state.kvByMode m =
          captureApply (st.kvByMode m)
            ((perRun (idx + modes.indexOf m)).kvCacheBytesFromLog)) ∧
      (∀ o ∈ (runMatrix cfg perRun
          (modes.map (fun m => { mode := m, limiterTarget := none })) idx
            st).outcomes,
        o.kvArg = none ∧ o.row.limiterTarget = none)
  | [], idx, st, hc, _ => by simp [runMatrix, hc]
  | m0 :: rest, idx, st, hc, hnd => by
    have hm0 : m0 ∉ rest := (List.nodup_cons.mp hnd).1
    have hndr : rest.Nodup := (List.nodup_cons.mp hnd).2
    have hro := runOne_ok cfg (perRun idx) st
      { mode := m0, limiterTarget := none } hc rfl
    have ih := runMatrix_baseline_phase cfg perRun rest (idx + 1)
      { cuda := cudaAfter st.cuda
      , kvByMode := kvUpdate st { mode := m0, limiterTarget := none } (perRun idx) }
      (cudaOkB_after st.cuda hc) hndr
    refine ⟨?_, ?_, ?_, ?_, ?_⟩
    · simp [runMatrix, hro, ih.1]
    · simp only [List.map_cons, runMatrix, hro]
      exact ih.2.1
    · intro m hm
      have hm1 : m ≠ m0 := fun he => hm (he ▸ List.mem_cons_self m0 rest)
      have hm2 : m ∉ rest := fun hmem => hm (List.mem_cons_of_mem m0 hmem)
      simp only [List.map_cons, runMatrix, hro]
      rw [ih.2.2.1 m hm2]
      exact kvUpdate_baseline_other st { mode := m0, limiterTarget := none }
        (perRun idx) m rfl hm1
    · intro m hm
      simp only [List.map_cons, runMatrix, hro]
      rcases List.mem_cons.mp hm with rfl | hmem
      · rw [ih.2.2.1 m hm0]
        have hself := kvUpdate_baseline_self st
          { mode := m, limiterTarget := none } (perRun idx) rfl
        rw [List.indexOf_cons_self]
        simpa using hself
      · have hne : m0 ≠ m := fun he => hm0 (he ▸ hmem)
        rw [ih.2.2.2.1 m hmem]
        dsimp only
        rw [kvUpdate_baseline_other st { mode := m0, limiterTarget := none }
          (perRun idx) m rfl (fun he => hne he.symm)]
        rw [List.indexOf_cons_ne _ hne]
        have hidx : idx + (rest.indexOf m + 1) = idx + 1 + rest.indexOf m := by
          omega
        rw [hidx]
    · intro o ho
      simp only [List.map_cons, runMatrix, hro, List.mem_cons] at ho
      rcases ho with rfl | ho
      · constructor
        · rw [kvArg_runOutcomeOf]
          exact kvCacheArg_baseline cfg st { mode := m0, limiterTarget := none } rfl
        · exact benchRow_limiterTarget (perRun idx) { mode := m0, limiterTarget := none }
      · exact ih.2.2.2.2 o ho

/-- C5: with a duplicate-free mode list and baselines not skipped (and
provisioning succeeding everywhere), the cache-memory hint map is keyed
per mode: a mode outside the configured list is never written; each
configured mode's final hint is exactly what its baseline run's server log
yielded (captured once, immutable afterwards); baseline runs never pass a
kv-cache argument; every throttled run passes the hint captured by its own
mode's baseline when one exists and the environment-supplied default
otherwise; and the absence of both is non-fatal (the matrix still
completes with a full result sequence). -/
theorem c5_kv_hint_per_mode (cfg : Config) (perRun : Nat → RunOracle)
    (modes : List String) (utils : List Rat) (cuda0 : Option String)
    (hm : modes.Nodup) (hc : cudaOkB cuda0 = true)
    (h1 : cfg.hypervisorBinExists = true) (h2 : cfg.limiterSoExists = true)
    (h3 : ∀ i, (perRun i).limiterReady = true) :
    (mainMatrix cfg perRun modes utils false cuda0).abort = none ∧
    (∀ m, m ∉ modes →
      (mainMatrix cfg perRun modes utils false cuda0).state.kvByMode m = none) ∧
    (∀ m ∈ modes,
      (mainMatrix cfg perRun modes utils false cuda0).state.kvByMode m =
        kvCaptured (perRun (modes.indexOf m))) ∧
    (∀ o ∈ (mainMatrix cfg perRun modes utils false cuda0).outcomes,
      o.row.limiterTarget = none → o.kvArg = none) ∧
    (∀ o ∈ (mainMatrix cfg perRun modes utils false cuda0).outcomes,
      o.row.limiterTarget ≠ none →
        o.row.mode ∈ modes ∧
        o.kvArg = kvArgFor cfg
          (fun m => kvCaptured (perRun (modes.indexOf m))) o.row.mode) := by
  have hb := runMatrix_baseline_phase cfg perRun modes 0
    { cuda := cuda0, kvByMode := fun _ => none } hc hm
  have happ := runMatrix_append cfg perRun
    (modes.map (fun m => { mode := m, limiterTarget := none }))
    (utils.flatMap (fun u => modes.map (fun m => { mode := m, limiterTarget := some u })))
    0 { cuda := cuda0, kvByMode := fun _ => none } hb.1
  have hall : ∀ s ∈ utils.flatMap
      (fun u => modes.map (fun m => ({ mode := m, limiterTarget := some u } : RunSpec))),
      s.limiterTarget.isSome = true := by
    intro s hs
    simp only [List.mem_flatMap, List.mem_map] at hs
    obtain ⟨u, _, mmode, _, rfl⟩ := hs
    rfl
  have ht := runMatrix_throttled_phase cfg perRun h1 h2 h3
    (utils.flatMap (fun u => modes.map (fun m => ({ mode := m, limiterTarget := some u } : RunSpec))))
    (0 + (modes.map (fun m => ({ mode := m, limiterTarget := none } : RunSpec))).length)
    (runMatrix cfg perRun
      (modes.map (fun m => ({ mode := m, limiterTarget := none } : RunSpec))) 0
      { cuda := cuda0, kvByMode := fun _ => none }).state
    hb.2.1 hall
  have hmm : mainMatrix cfg perRun modes utils false cuda0 =
      runMatrix cfg perRun
        (modes.map (fun m => { mode := m, limiterTarget := none }) ++
         utils.flatMap
           (fun u => modes.map (fun m => { mode := m, limiterTarget := some u })))
        0 { cuda := cuda0, kvByMode := fun _ => none } := rfl
  rw [hmm, happ]
  dsimp only
  have hbkv : ∀ m ∈ modes,
      (runMatrix cfg perRun
        (modes.map (fun m => { mode := m, limiterTarget := none })) 0
        { cuda := cuda0, kvByMode := fun _ => none }).state.kvByMode m =
        kvCaptured (perRun (modes.indexOf m)) := by
    intro m hmem
    rw [hb.2.2.2.1 m hmem]
    simp [captureApply, kvCaptured]
  have hbkv' : ∀ m, m ∉ modes →
      (runMatrix cfg perRun
        (modes.map (fun m => { mode := m, limiterTarget := none })) 0
        { cuda := cuda0, kvByMode := fun _ => none }).state.kvByMode m = none := by
    intro m hmem
    rw [hb.2.2.1 m hmem]
  refine ⟨ht.1, ?_, ?_, ?_, ?_⟩
  · intro m hmem
    rw [ht.2.1]
    exact hbkv' m hmem
  · intro m hmem
    rw [ht.2.1]
    exact hbkv m hmem
  · intro o ho hnone
    simp only [List.mem_append] at ho
    rcases ho with ho | ho
    · exact (hb.2.2.2.2 o ho).1
    · have := (ht.2.2 o ho).1
      rw [hnone] at this
      exact absurd this (by simp)
  · intro o ho hsome
    simp only [List.mem_append] at ho
    rcases ho with ho | ho
    · exact absurd ((hb.2.2.2.2 o ho).2) hsome
    · obtain ⟨_, ⟨s, hsmem, hmode⟩, hkvarg⟩ := ht.2.2 o ho
      have hmem : o.row.mode ∈ modes := by
        simp only [List.mem_flatMap, List.mem_map] at hsmem
        obtain ⟨u, _, mmode, hmm2, rfl⟩ := hsmem
        rw [hmode]
        exact hmm2
      refine ⟨hmem, ?_⟩
      rw [hkvarg]
      exact kvArgFor_congr cfg _ _ _ (hbkv o.row.mode hmem)

/-- C5 witness: a single-mode matrix whose baseline log yields a
kv-cache-size hint pins that hint for the mode. -/
theorem c5_kv_hint_per_mode_witness :
    (mainMatrix goodConfig (fun _ => kvOracle) ["single"] [mkRat 1 2] false
      (some "0")).state.kvByMode "single" =
      kvCaptured ((fun _ => kvOracle) (["single"].indexOf "single")) :=
  (c5_kv_hint_per_mode goodConfig (fun _ => kvOracle) ["single"] [mkRat 1 2]
    (some "0") (by decide) (by decide) rfl rfl (fun i => rfl)).2.2.1
    "single" (by decide)

/- ===================== Readiness prober lemmas ===================== -/

theorem waitLoop_ok (url : String) (o : PollOracle) (T i : Nat) (k t : Nat)
    (le : Option String) :
    ∀ N e, waitLoop url o T i k t le = .ok N e →
      k + 1 ≤ N ∧ poll2xxB o (N - 1) = true ∧
      (∀ j, k ≤ j → j < N - 1 → poll2xxB o j = false) ∧
      t + (N - 1 - k) * max 1 i ≤ e := by
  induction k, t, le using waitLoop.induct url o T i with
  | case1 k t le h s hs h2xx =>
    intro N e hok
    rw [waitLoop, dif_pos h] at hok
    simp only [hs, h2xx, if_pos] at hok
    obtain ⟨hN, he⟩ := WaitOutcome.ok.inj hok
    subst hN
    subst he
    refine ⟨le_refl _, ?_, ?_, ?_⟩
    · simp only [Nat.add_sub_cancel, poll2xxB, hs]
      exact h2xx
    · intro j hj1 hj2
      omega
    · have h0 : k + 1 - 1 - k = 0 := by omega
      rw [h0, Nat.zero_mul]
      omega
  | case2 k t le h s hs h2xx ih =>
    intro N e hok
    rw [waitLoop, dif_pos h] at hok
    simp only [hs] at hok
    rw [if_neg h2xx] at hok
    obtain ⟨h1, h2, h3, h4⟩ := ih N e hok
    have hfx : is2xx s = false := by simpa using h2xx
    refine ⟨by omega, h2, ?_, ?_⟩
    · intro j hj1 hj2
      by_cases hj : j = k
      · subst hj
        simp only [poll2xxB, hs]
        exact hfx
      · exact h3 j (by omega) hj2
    · generalize hM : max 1 i = M at h4 ⊢
      have hsplit : N - 1 - k = (N - 1 - (k + 1)) + 1 := by omega
      rw [hsplit, Nat.succ_mul]
      generalize (N - 1 - (k + 1)) * M = P at h4 ⊢
      omega
  | case3 k t le h msg hne ih =>
    intro N e hok
    rw [waitLoop, dif_pos h] at hok
    simp only [hne] at hok
    obtain ⟨h1, h2, h3, h4⟩ := ih N e hok
    refine ⟨by omega, h2, ?_, ?_⟩
    · intro j hj1 hj2
      by_cases hj : j = k
      · subst hj
        simp [poll2xxB, hne]
      · exact h3 j (by omega) hj2
    · generalize hM : max 1 i = M at h4 ⊢
      have hsplit : N - 1 - k = (N - 1 - (k + 1)) + 1 := by omega
      rw [hsplit, Nat.succ_mul]
      generalize (N - 1 - (k + 1)) * M = P at h4 ⊢
      omega
  | case4 k t le h =>
    intro N e hok
    rw [waitLoop, dif_neg h] at hok
    exact absurd hok (by simp)

theorem waitLoop_timeout (url : String) (o : PollOracle) (T i : Nat) (k t : Nat)
    (le : Option String) :
    ∀ K e m, waitLoop url o T i k t le = .timeout K e m →
      k ≤ K ∧ t ≤ e ∧ T ≤ e ∧
      (∀ j, k ≤ j → j < K → poll2xxB o j = false) ∧
      (K = k → m = timeoutMsg url le ∧ e = t) ∧
      (k < K → m = timeoutMsg url (some (pollErrMsg (o.result (K - 1)))) ∧
        e < T + o.dur (K - 1) + max 1 i) := by
  induction k, t, le using waitLoop.induct url o T i with
  | case1 k t le h s hs h2xx =>
    intro K e m hto
    rw [waitLoop, dif_pos h] at hto
    simp only [hs, h2xx, if_pos] at hto
    exact absurd hto (by simp)
  | case2 k t le h s hs h2xx ih =>
    intro K e m hto
    rw [waitLoop, dif_pos h] at hto
    simp only [hs] at hto
    rw [if_neg h2xx] at hto
    obtain ⟨i1, i2, i3, i4, i5, i6⟩ := ih K e m hto
    have hfx : is2xx s = false := by simpa using h2xx
    refine ⟨by omega, by omega, i3, ?_, ?_, ?_⟩
    · intro j hj1 hj2
      by_cases hj : j = k
      · subst hj
        simp only [poll2xxB, hs]
        exact hfx
      · exact i4 j (by omega) hj2
    · intro hKk
      exact absurd hKk (by omega)
    · intro _
      by_cases hK : K = k + 1
      · obtain ⟨hm, he⟩ := i5 hK
        subst hK
        refine ⟨?_, ?_⟩
        · rw [hm]
          simp only [Nat.add_sub_cancel, hs, pollErrMsg]
        · rw [he]
          simp only [Nat.add_sub_cancel]
          omega
      · exact i6 (by omega)
  | case3 k t le h msg hne ih =>
    intro K e m hto
    rw [waitLoop, dif_pos h] at hto
    simp only [hne] at hto
    obtain ⟨i1, i2, i3, i4, i5, i6⟩ := ih K e m hto
    refine ⟨by omega, by omega, i3, ?_, ?_, ?_⟩
    · intro j hj1 hj2
      by_cases hj : j = k
      · subst hj
        simp [poll2xxB, hne]
      · exact i4 j (by omega) hj2
    · intro hKk
      exact absurd hKk (by omega)
    · intro _
      by_cases hK : K = k + 1
      · obtain ⟨hm, he⟩ := i5 hK
        subst hK
        refine ⟨?_, ?_⟩
        · rw [hm]
          simp only [Nat.add_sub_cancel, hne, pollErrMsg]
        · rw [he]
          simp only [Nat.add_sub_cancel]
          omega
      · exact i6 (by omega)
  | case4 k t le h =>
    intro K e m hto
    rw [waitLoop, dif_neg h] at hto
    obtain ⟨hK, he, hm⟩ := WaitOutcome.timeout.inj hto
    subst hK
    subst he
    subst hm
    refine ⟨le_refl _, le_refl _, by omega, ?_, fun _ => ⟨rfl, rfl⟩, ?_⟩
    · intro j hj1 hj2
      omega
    · intro hlt
      exact absurd hlt (by omega)

/-- C3 (amended): waitForHttpOk returns successfully exactly when some poll
observes a 2xx status before the deadline; success on the N-th poll
happens at elapsed time at least (N-1) times the interval — the first poll
can succeed at elapsed 0, earlier than N·intervalMs; if no poll ever
observes 2xx, it throws at the first deadline check at or after timeoutMs
(elapsed ≥ timeoutMs, within one poll duration plus one interval beyond),
with an error message carrying the last observed failure reason — the last
HTTP status or network error message, or the placeholder reason when no
poll completed. -/
theorem c3_wait_for_http_ok (url : String) (o : PollOracle) (T i : Nat) :
    (∀ N e, waitForHttpOk url o T i = .ok N e →
      1 ≤ N ∧ poll2xxB o (N - 1) = true ∧
      (∀ j, j < N - 1 → poll2xxB o j = false) ∧
      (N - 1) * max 1 i ≤ e) ∧
    (∀ K e m, waitForHttpOk url o T i = .timeout K e m →
      T ≤ e ∧ (∀ j, j < K → poll2xxB o j = false) ∧
      (K = 0 → m = timeoutMsg url none ∧ e = 0) ∧
      (0 < K → m = timeoutMsg url (some (pollErrMsg (o.result (K - 1)))) ∧
        e < T + o.dur (K - 1) + max 1 i)) ∧
    ((∀ j, poll2xxB o j = false) →
      ∃ K e m, waitForHttpOk url o T i = .timeout K e m) := by
  refine ⟨?_, ?_, ?_⟩
  · intro N e hok
    obtain ⟨h1, h2, h3, h4⟩ := waitLoop_ok url o T i 0 0 none N e hok
    refine ⟨h1, h2, fun j hj => h3 j (Nat.zero_le j) hj, ?_⟩
    simpa using h4
  · intro K e m hto
    obtain ⟨i1, i2, i3, i4, i5, i6⟩ := waitLoop_timeout url o T i 0 0 none K e m hto
    exact ⟨i3, fun j hj => i4 j (Nat.zero_le j) hj, i5, i6⟩
  · intro hall
    rcases hw : waitForHttpOk url o T i with ⟨N, e⟩ | ⟨K, e, m⟩
    · obtain ⟨_, h2, _, _⟩ := (waitLoop_ok url o T i 0 0 none N e hw)
      rw [hall (N - 1)] at h2
      exact absurd h2 (by simp)
    · exact ⟨K, e, m, rfl⟩

theorem pollOk200Eval :
    waitForHttpOk "http://127.0.0.1:8000/v1/models" pollOk200 120000 1000 =
      .ok 1 0 := by
  rw [waitForHttpOk, waitLoop]
  norm_num [pollOk200, is2xx]

theorem poll503Eval :
    waitForHttpOk "http://127.0.0.1:9000/healthz" poll503 1500 1000 =
      .timeout 2 2000
        (timeoutMsg "http://127.0.0.1:9000/healthz" (some "HTTP 503")) := by
  rw [waitForHttpOk, waitLoop]
  norm_num [poll503, is2xx]
  rw [waitLoop]
  norm_num [poll503, is2xx]
  rw [waitLoop]
  norm_num
  decide

/-- C3 counterexample: an endpoint answering 200 immediately succeeds on
the first poll at elapsed 0, strictly earlier than N·intervalMs = 1000;
and an endpoint that never answers 2xx, with timeoutMs = 1500 and
intervalMs = 1000, fails at elapsed 2000, not exactly at timeoutMs. -/
theorem c3_counterexample :
    waitForHttpOk "http://127.0.0.1:8000/v1/models" pollOk200 120000 1000 =
      .ok 1 0 ∧
    ¬(1 * 1000 ≤ 0) ∧
    waitForHttpOk "http://127.0.0.1:9000/healthz" poll503 1500 1000 =
      .timeout 2 2000
        (timeoutMsg "http://127.0.0.1:9000/healthz" (some "HTTP 503")) ∧
    (2000 : Nat) ≠ 1500 :=
  ⟨pollOk200Eval, by omega, poll503Eval, by omega⟩

/-- C3 witness: the amended bounds evaluated on the two concrete
endpoints. -/
theorem c3_wait_for_http_ok_witness :
    poll2xxB pollOk200 (1 - 1) = true ∧ (1500 : Nat) ≤ 2000 :=
  ⟨((c3_wait_for_http_ok "http://127.0.0.1:8000/v1/models" pollOk200
      120000 1000).1 1 0 pollOk200Eval).2.1,
   ((c3_wait_for_http_ok "http://127.0.0.1:9000/healthz" poll503
      1500 1000).2.1 2 2000
      (timeoutMsg "http://127.0.0.1:9000/healthz" (some "HTTP 503"))
      poll503Eval).1⟩

end VllmBench
